import Mathlib

/-!
Shallow embedding of the mutation-orchestration core of the
google-drive-backend repository: metadata rows (files, folders,
permissions, file_versions, user_clipboard), the blob store, and the
compound routes (upload, paste, folder patch/delete, soft delete,
share resolution, shared edit) as pure state-passing functions.
Collaborator failures are injected through explicit fault flags at the
call sites where the routes inspect an error result.
-/

namespace Drive

/-- Bytes held by the blob store for one object. -/
abbrev Blob := List Nat

/-- An HTTP error response: status code and message, as produced by the routes. -/
structure ApiError where
  status : Nat
  message : String
deriving DecidableEq, Repr

/-- The role column of a permissions row. -/
inductive Role
  | owner
  | view
  | edit
deriving DecidableEq, Repr

/-- A row of the files table. Timestamps are modelled as naturals. -/
structure FileRow where
  id : Nat
  name : String
  size : Nat
  format : String
  path : String
  user_id : Nat
  folder_id : Option Nat
  deleted_at : Option Nat
deriving DecidableEq, Repr

/-- A row of the folders table. -/
structure FolderRow where
  id : Nat
  name : String
  user_id : Nat
  parent_id : Option Nat
  deleted_at : Option Nat
deriving DecidableEq, Repr

/-- A row of the permissions table (capability tokens included). -/
structure PermissionRow where
  id : Nat
  file_id : Nat
  user_id : Option Nat
  role : Role
  share_token : String
  can_download : Bool
  can_preview : Bool
  expires_at : Option Nat
  max_access_count : Option Nat
  access_count : Nat
deriving DecidableEq, Repr

/-- A row of the file_versions table. -/
structure FileVersionRow where
  file_id : Nat
  version_number : Nat
  name : String
  size : Nat
  format : String
  path : String
  created_by : Option Nat
deriving DecidableEq, Repr

/-- Kind tag of a clipboard item. -/
inductive ItemType
  | file
  | folder
deriving DecidableEq, Repr

/-- The copy/cut tag of a clipboard entry. -/
inductive ClipOp
  | copy
  | cut
deriving DecidableEq, Repr

/-- A row of the user_clipboard table. -/
structure ClipboardRow where
  id : Nat
  user_id : Nat
  item_id : Nat
  item_type : ItemType
  operation : ClipOp
deriving DecidableEq, Repr

/-- The blob store: an association of path strings to blob contents. -/
abbrev Storage := List (String × Blob)

/-- The whole persisted state: metadata store tables plus the blob store. -/
structure State where
  files : List FileRow
  folders : List FolderRow
  permissions : List PermissionRow
  fileVersions : List FileVersionRow
  clipboard : List ClipboardRow
  storage : Storage
deriving DecidableEq, Repr

/-- JavaScript truthiness of a nullable numeric column: null and 0 are falsy. -/
def natTruthy : Option Nat → Bool
  | none => false
  | some n => decide (n ≠ 0)

/-- JavaScript truthiness of a nullable string: null and the empty string are falsy. -/
def strTruthy : Option String → Bool
  | none => false
  | some s => decide (s ≠ "")

/-- The exhaustion guard of share.ts: max_access_count truthy and
access_count at or above it. -/
def macGuard (mac : Option Nat) (ac : Nat) : Bool :=
  natTruthy mac && decide (ac ≥ mac.getD 0)

/-- The expiry guard of share.ts: expires_at set and strictly in the past. -/
def expiredAt (ea : Option Nat) (now : Nat) : Bool :=
  match ea with
  | none => false
  | some e => decide (now > e)

/-- Lookup of a permissions row by share token (first match, as .single()). -/
def findPermByToken (tok : String) (s : State) : Option PermissionRow :=
  s.permissions.find? (fun p => decide (p.share_token = tok))

/-- Lookup of a non-deleted file row by id. -/
def findLiveFile (fid : Nat) (s : State) : Option FileRow :=
  s.files.find? (fun f => decide (f.id = fid ∧ f.deleted_at = none))

/-- Whether the blob store holds an object at the given path. -/
def hasPath (p : String) (st : Storage) : Bool :=
  st.any (fun e => decide (e.1 = p))

/-- Blob-store download of a path. -/
def getBlob (p : String) (st : Storage) : Option Blob :=
  (st.find? (fun e => decide (e.1 = p))).map (fun e => e.2)

/-- Blob-store upload with upsert disabled: fails on an injected fault or
when the path already holds an object. -/
def putBlob (fault : Bool) (p : String) (b : Blob) (st : Storage) : Option Storage :=
  if fault || hasPath p st then none else some ((p, b) :: st)

/-- Blob-store removal of a list of paths. -/
def removePaths (ps : List String) (st : Storage) : Storage :=
  st.filter (fun e => decide (e.1 ∉ ps))

/-- GET /share/:shareToken of src/src/routes/share.ts: resolve a share token,
enforcing expiry and the access ceiling (check, then increment), and return
the live file together with the reported access count. -/
def resolveShare (tok : String) (now : Nat) (s : State) :
    Except ApiError (FileRow × PermissionRow × Nat) × State :=
  match findPermByToken tok s with
  | none => (.error ⟨404, "Invalid or expired share link"⟩, s)
  | some perm =>
    if expiredAt perm.expires_at now then
      (.error ⟨403, "Share link has expired"⟩, s)
    else if macGuard perm.max_access_count perm.access_count then
      (.error ⟨403, "Share link access limit reached"⟩, s)
    else
      match findLiveFile perm.file_id s with
      | none => (.error ⟨404, "File not found or deleted"⟩, s)
      | some f =>
        (.ok (f, perm, perm.access_count + 1),
         { s with permissions := s.permissions.map (fun p =>
             if p.share_token = tok then { p with access_count := perm.access_count + 1 } else p) })

/-- GET /share/:shareToken/download of src/src/routes/share.ts: additionally
requires can_download and a successful storage download before incrementing. -/
def resolveShareDownload (tok : String) (now : Nat) (s : State) :
    Except ApiError (FileRow × Blob) × State :=
  match findPermByToken tok s with
  | none => (.error ⟨404, "Invalid or expired share link"⟩, s)
  | some perm =>
    if perm.can_download = false then
      (.error ⟨403, "Download not allowed for this share link"⟩, s)
    else if expiredAt perm.expires_at now then
      (.error ⟨403, "Share link has expired"⟩, s)
    else if macGuard perm.max_access_count perm.access_count then
      (.error ⟨403, "Share link access limit reached"⟩, s)
    else
      match findLiveFile perm.file_id s with
      | none => (.error ⟨404, "File not found or deleted"⟩, s)
      | some f =>
        match getBlob f.path s.storage with
        | none => (.error ⟨500, "Failed to download file from storage"⟩, s)
        | some b =>
          (.ok (f, b),
           { s with permissions := s.permissions.map (fun p =>
               if p.share_token = tok then { p with access_count := perm.access_count + 1 } else p) })

/-- State after a given number of consecutive resolve calls on a token. -/
def resolveSeq (tok : String) (now : Nat) : Nat → State → State
  | 0, s => s
  | k + 1, s => resolveSeq tok now k (resolveShare tok now s).2

theorem findLiveFile_only_files (fid : Nat) (s s' : State) (h : s'.files = s.files) :
    findLiveFile fid s' = findLiveFile fid s := by
  unfold findLiveFile
  rw [h]

theorem find?_map_inc_list (tok : String) (n : Nat) (l : List PermissionRow) :
    (l.map (fun p => if p.share_token = tok then { p with access_count := n } else p)).find?
        (fun p => decide (p.share_token = tok))
      = (l.find? (fun p => decide (p.share_token = tok))).map
        (fun p => if p.share_token = tok then { p with access_count := n } else p) := by
  induction l with
  | nil => rfl
  | cons a t ih =>
    by_cases h : a.share_token = tok
    · rw [List.map_cons, if_pos h,
        List.find?_cons_of_pos _ (by simp [h]),
        List.find?_cons_of_pos _ (by simp [h])]
      simp [h]
    · rw [List.map_cons, if_neg h,
        List.find?_cons_of_neg _ (by simp [h]),
        List.find?_cons_of_neg _ (by simp [h]), ih]

theorem findPermByToken_map_inc (tok : String) (s : State) (n : Nat) :
    findPermByToken tok { s with permissions := s.permissions.map (fun p =>
        if p.share_token = tok then { p with access_count := n } else p) }
      = (findPermByToken tok s).map (fun p =>
        if p.share_token = tok then { p with access_count := n } else p) := by
  unfold findPermByToken
  exact find?_map_inc_list tok n s.permissions

theorem resolveShare_step (tok : String) (now N : Nat) (s : State)
    (p : PermissionRow) (f : FileRow)
    (hp : findPermByToken tok s = some p)
    (hexp : p.expires_at = none)
    (hmac : p.max_access_count = some N)
    (hlt : p.access_count < N)
    (hf : findLiveFile p.file_id s = some f) :
    (resolveShare tok now s).1 = .ok (f, p, p.access_count + 1) ∧
    findPermByToken tok (resolveShare tok now s).2 =
      some { p with access_count := p.access_count + 1 } ∧
    (resolveShare tok now s).2.files = s.files := by
  have htok : p.share_token = tok := by
    have := List.find?_some hp
    simpa using this
  have hmg : macGuard p.max_access_count p.access_count = false := by
    simp [macGuard, hmac, natTruthy, Nat.not_le.mpr hlt]
  unfold resolveShare
  rw [hp]
  simp only [hexp, expiredAt, hmg, Bool.false_eq_true, if_false]
  rw [hf]
  refine ⟨rfl, ?_, rfl⟩
  show findPermByToken tok { s with permissions := s.permissions.map (fun q =>
      if q.share_token = tok then { q with access_count := p.access_count + 1 } else q) } = _
  rw [findPermByToken_map_inc, hp]
  simp [htok, hexp]

theorem resolveSeq_state (tok : String) (now N : Nat) :
    ∀ (k : Nat) (s : State) (p : PermissionRow) (f : FileRow),
      findPermByToken tok s = some p →
      p.expires_at = none →
      p.max_access_count = some N →
      p.access_count + k ≤ N →
      findLiveFile p.file_id s = some f →
      findPermByToken tok (resolveSeq tok now k s) =
        some { p with access_count := p.access_count + k } ∧
      (resolveSeq tok now k s).files = s.files
  | 0, s, p, f, hp, _, _, _, _ => by
      simpa [resolveSeq] using hp
  | k + 1, s, p, f, hp, hexp, hmac, hk, hf => by
      have hlt : p.access_count < N := by omega
      obtain ⟨-, hp1, hfiles1⟩ := resolveShare_step tok now N s p f hp hexp hmac hlt hf
      have hf1 : findLiveFile p.file_id (resolveShare tok now s).2 = some f :=
        (findLiveFile_only_files p.file_id s _ hfiles1).trans hf
      have hk1 : ({ p with access_count := p.access_count + 1 } :
          PermissionRow).access_count + k ≤ N := by
        simp only []
        omega
      obtain ⟨ha, hb⟩ := resolveSeq_state tok now N k (resolveShare tok now s).2
        { p with access_count := p.access_count + 1 } f hp1 hexp hmac hk1 hf1
      refine ⟨?_, ?_⟩
      · rw [show resolveSeq tok now (k + 1) s =
          resolveSeq tok now k (resolveShare tok now s).2 from rfl]
        rw [ha]
        have : p.access_count + 1 + k = p.access_count + (k + 1) := by omega
        simp [this]
      · rw [show resolveSeq tok now (k + 1) s =
          resolveSeq tok now k (resolveShare tok now s).2 from rfl]
        rw [hb, hfiles1]

/-- C1: on a token whose permission row carries max_access_count = N with
access_count starting at 0 and no expiry, backed by a live file, the first
N resolve calls succeed and the call after them is refused with the 403
access-limit error (check-then-increment: the call that reaches the limit
is still served). -/
theorem shareToken_usable_exactly_N (tok : String) (now N : Nat) (s : State)
    (p : PermissionRow) (f : FileRow)
    (hp : findPermByToken tok s = some p)
    (hexp : p.expires_at = none)
    (hmac : p.max_access_count = some N)
    (hac : p.access_count = 0)
    (hN : 1 ≤ N)
    (hf : findLiveFile p.file_id s = some f) :
    (∀ k, k < N → ((resolveShare tok now (resolveSeq tok now k s)).1).isOk = true) ∧
    (resolveShare tok now (resolveSeq tok now N s)).1 =
      .error ⟨403, "Share link access limit reached"⟩ := by
  constructor
  · intro k hk
    obtain ⟨ha, hb⟩ := resolveSeq_state tok now N k s p f hp hexp hmac (by omega) hf
    have hfk : findLiveFile p.file_id (resolveSeq tok now k s) = some f :=
      (findLiveFile_only_files p.file_id s _ hb).trans hf
    obtain ⟨hres, -, -⟩ := resolveShare_step tok now N (resolveSeq tok now k s)
      { p with access_count := p.access_count + k } f ha hexp hmac (by simp only []; omega) hfk
    rw [hres]
    rfl
  · obtain ⟨ha, hb⟩ := resolveSeq_state tok now N N s p f hp hexp hmac (by omega) hf
    unfold resolveShare
    rw [ha]
    have hmg : macGuard (some N) (p.access_count + N) = true := by
      simp [macGuard, natTruthy]
      omega
    simp [hexp, expiredAt, hmac, hmg]

/-- Concrete state for the C1 witness: one live file and one share token
with a ceiling of two accesses. -/
def stateC1 : State :=
  ⟨[⟨1, "a", 1, "text/plain", "7/0_a", 7, none, none⟩], [],
   [⟨1, 1, none, .view, "t", true, true, none, some 2, 0⟩], [], [], []⟩

/-- Witness for C1 at a concrete state: token usable twice, refused on the third call. -/
theorem shareToken_usable_exactly_N_witness :
    ((resolveShare "t" 0 (resolveSeq "t" 0 0 stateC1)).1).isOk = true ∧
    ((resolveShare "t" 0 (resolveSeq "t" 0 1 stateC1)).1).isOk = true ∧
    (resolveShare "t" 0 (resolveSeq "t" 0 2 stateC1)).1 =
      .error ⟨403, "Share link access limit reached"⟩ :=
  ⟨(shareToken_usable_exactly_N "t" 0 2 stateC1
      ⟨1, 1, none, .view, "t", true, true, none, some 2, 0⟩
      ⟨1, "a", 1, "text/plain", "7/0_a", 7, none, none⟩
      (by decide) (by decide) (by decide) (by decide) (by decide) (by decide)).1 0 (by decide),
   (shareToken_usable_exactly_N "t" 0 2 stateC1
      ⟨1, 1, none, .view, "t", true, true, none, some 2, 0⟩
      ⟨1, "a", 1, "text/plain", "7/0_a", 7, none, none⟩
      (by decide) (by decide) (by decide) (by decide) (by decide) (by decide)).1 1 (by decide),
   (shareToken_usable_exactly_N "t" 0 2 stateC1
      ⟨1, 1, none, .view, "t", true, true, none, some 2, 0⟩
      ⟨1, "a", 1, "text/plain", "7/0_a", 7, none, none⟩
      (by decide) (by decide) (by decide) (by decide) (by decide) (by decide)).2⟩

/-- C10: a permission row with max_access_count = 0 is treated as unlimited:
neither the resolve route nor its download variant ever returns the 403
access-limit refusal for it, whatever the access_count. -/
theorem mac_zero_unlimited (tok : String) (now : Nat) (s : State) (p : PermissionRow)
    (hp : findPermByToken tok s = some p)
    (hmac : p.max_access_count = some 0) :
    (resolveShare tok now s).1 ≠ .error ⟨403, "Share link access limit reached"⟩ ∧
    (resolveShareDownload tok now s).1 ≠ .error ⟨403, "Share link access limit reached"⟩ := by
  have hmg : macGuard p.max_access_count p.access_count = false := by
    simp [macGuard, hmac, natTruthy]
  constructor
  · unfold resolveShare
    rw [hp]
    simp only [hmg, Bool.false_eq_true, if_false]
    split
    · simp
    · split
      · simp
      · simp
  · unfold resolveShareDownload
    rw [hp]
    simp only [hmg, Bool.false_eq_true, if_false]
    split
    · simp
    · split
      · simp
      · split
        · simp
        · split
          · simp
          · simp

/-- Witness for C10: a zero-ceiling token with a large access_count is still served. -/
theorem mac_zero_unlimited_witness :
    (resolveShare "t" 0
        ⟨[⟨1, "a", 1, "text/plain", "7/0_a", 7, none, none⟩], [],
         [⟨1, 1, none, .view, "t", true, true, none, some 0, 1000⟩], [], [],
         [("7/0_a", [0])]⟩).1 ≠ .error ⟨403, "Share link access limit reached"⟩ ∧
    (resolveShareDownload "t" 0
        ⟨[⟨1, "a", 1, "text/plain", "7/0_a", 7, none, none⟩], [],
         [⟨1, 1, none, .view, "t", true, true, none, some 0, 1000⟩], [], [],
         [("7/0_a", [0])]⟩).1 ≠ .error ⟨403, "Share link access limit reached"⟩ :=
  mac_zero_unlimited "t" 0
    ⟨[⟨1, "a", 1, "text/plain", "7/0_a", 7, none, none⟩], [],
     [⟨1, 1, none, .view, "t", true, true, none, some 0, 1000⟩], [], [],
     [("7/0_a", [0])]⟩
    ⟨1, 1, none, .view, "t", true, true, none, some 0, 1000⟩
    (by decide) (by decide)

/-- Sanitizer of file names used by the enhanced routes:
characters outside letters, digits, dot and hyphen become underscores. -/
def sanitize (nm : String) : String :=
  String.mk (nm.data.map (fun c => if c.isAlphanum || c = '.' || c = '-' then c else '_'))

/-- Main blob path of the enhanced routes: userId/timestamp_sanitizedName. -/
def mainPath (uid ts : Nat) (nm : String) : String :=
  toString uid ++ "/" ++ toString ts ++ "_" ++ nm

/-- Version blob path of the enhanced upload: versions/userId/timestamp_sanitizedName. -/
def versionsPath (uid ts : Nat) (nm : String) : String :=
  "versions/" ++ toString uid ++ "/" ++ toString ts ++ "_" ++ nm

/-- A fresh identifier, strictly larger than every id in the list. -/
def freshId (ids : List Nat) : Nat :=
  ids.foldr max 0 + 1

theorem le_foldr_max (ids : List Nat) : ∀ x ∈ ids, x ≤ ids.foldr max 0 := by
  induction ids with
  | nil => intro x hx; cases hx
  | cons a t ih =>
    intro x hx
    rcases hx with _ | hx
    · exact Nat.le_max_left _ _
    · exact Nat.le_trans (ih x (by assumption)) (Nat.le_max_right _ _)

theorem freshId_not_mem (ids : List Nat) : freshId ids ∉ ids := by
  intro h
  have := le_foldr_max ids _ h
  unfold freshId at this
  omega

theorem freshId_ne (ids : List Nat) (x : Nat) (hx : x ∈ ids) : x ≠ freshId ids := by
  intro h
  exact freshId_not_mem ids (h ▸ hx)

theorem filter_append_fresh (l : List FileRow) (row : FileRow)
    (hrow : row.id = freshId (l.map (fun f => f.id))) :
    (l ++ [row]).filter (fun f => decide (f.id ≠ freshId (l.map (fun g => g.id)))) = l := by
  rw [List.filter_append]
  have h1 : l.filter (fun f => decide (f.id ≠ freshId (l.map (fun g => g.id)))) = l := by
    apply List.filter_eq_self.mpr
    intro a ha
    simp only [decide_eq_true_eq]
    exact freshId_ne _ _ (List.mem_map_of_mem _ ha)
  have h2 : [row].filter (fun f => decide (f.id ≠ freshId (l.map (fun g => g.id)))) = [] := by
    simp [hrow]
  rw [h1, h2, List.append_nil]

theorem hasPath_false_ne (p : String) (st : Storage) (h : hasPath p st = false) :
    ∀ e ∈ st, e.1 ≠ p := by
  intro e he heq
  have hT : hasPath p st = true := by
    unfold hasPath
    exact List.any_eq_true.mpr ⟨e, he, by simp [heq]⟩
  rw [h] at hT
  cases hT

theorem removePaths_eq_self (ps : List String) (st : Storage)
    (h : ∀ e ∈ st, e.1 ∉ ps) : removePaths ps st = st := by
  apply List.filter_eq_self.mpr
  intro a ha
  simp only [decide_eq_true_eq]
  exact h a ha

theorem removePaths_cons_mem (ps : List String) (p : String) (b : Blob) (st : Storage)
    (hp : p ∈ ps) : removePaths ps ((p, b) :: st) = removePaths ps st := by
  unfold removePaths
  rw [List.filter_cons]
  simp [hp]

theorem putBlob_some (fault : Bool) (p : String) (b : Blob) (st st' : Storage)
    (h : putBlob fault p b st = some st') :
    st' = (p, b) :: st ∧ hasPath p st = false ∧ fault = false := by
  unfold putBlob at h
  by_cases hc : (fault || hasPath p st) = true
  · rw [if_pos hc] at h; cases h
  · rw [if_neg hc] at h
    have hc' : (fault || hasPath p st) = false := by
      cases hv : (fault || hasPath p st)
      · rfl
      · exact absurd hv hc
    have hparts := Bool.or_eq_false_iff.mp hc'
    exact ⟨by injection h with h2; exact h2.symm, hparts.2, hparts.1⟩

/-- Injected collaborator faults for one upload call, one flag per step at
which the route inspects an error result. -/
structure UploadFaults where
  insertFile : Bool
  mainPut : Bool
  versionPut : Bool
  insertPerm : Bool
  insertVersion : Bool
deriving DecidableEq, Repr

/-- All permissions rows reference an existing file row. -/
def permsRefFiles (s : State) : Bool :=
  s.permissions.all (fun p => s.files.any (fun f => decide (f.id = p.file_id)))

/-- All file_versions rows reference an existing file row. -/
def versionsRefFiles (s : State) : Bool :=
  s.fileVersions.all (fun v => s.files.any (fun f => decide (f.id = v.file_id)))

/-- Validation of a request folder id: the folder must exist, belong to the
caller and not be soft-deleted (vacuously true when no folder id is sent). -/
def folderCheck (folderId : Option Nat) (uid : Nat) (s : State) : Bool :=
  match folderId with
  | none => true
  | some tf => (s.folders.find? (fun f =>
      decide (f.id = tf ∧ f.user_id = uid ∧ f.deleted_at = none))).isSome

/-- The owner permission row inserted for a freshly created file. -/
def ownerPermFor (fid pid : Nat) (uid : Nat) (tokenStr : String) : PermissionRow :=
  { id := pid, file_id := fid, user_id := some uid, role := .owner,
    share_token := tokenStr, can_download := true, can_preview := true,
    expires_at := none, max_access_count := none, access_count := 0 }

/-- POST /upload of src/unnamed/part_009 (the enhanced upload route):
validate folder, insert the File row, put the main blob (rollback row on
failure), put the version blob (failure non-fatal: the two continuations
below mirror the code paths with versionStorageError truthy and falsy),
insert the owner Permission (rollback blobs and row on failure), then
insert the version-1 FileVersion row only when the version put succeeded
(its failure non-fatal). -/
def uploadEnhanced (fl : UploadFaults) (uid : Nat) (name : String) (content : Blob)
    (sz : Nat) (fmt : String) (folderId : Option Nat) (ts : Nat) (tokenStr : String)
    (s : State) : Except ApiError FileRow × State :=
  if folderCheck folderId uid s = false then
    (.error ⟨404, "Folder not found or unauthorized"⟩, s)
  else
    let fPath := mainPath uid ts (sanitize name)
    let vPath := versionsPath uid ts (sanitize name)
    if fl.insertFile then (.error ⟨500, "File upload failed: metadata insert"⟩, s)
    else
      let fid := freshId (s.files.map (fun f => f.id))
      let row : FileRow :=
        { id := fid, name := name, size := sz, format := fmt, path := fPath,
          user_id := uid, folder_id := folderId, deleted_at := none }
      let files1 := s.files ++ [row]
      match putBlob fl.mainPut fPath content s.storage with
      | none =>
        (.error ⟨500, "File upload failed: storage upload"⟩,
         { s with files := files1.filter (fun f => decide (f.id ≠ fid)) })
      | some st1 =>
        match putBlob fl.versionPut vPath content st1 with
        | none =>
          if fl.insertPerm then
            (.error ⟨500, "File upload failed: permission insert"⟩,
             { s with
               files := files1.filter (fun f => decide (f.id ≠ fid)),
               storage := removePaths [fPath] st1 })
          else
            (.ok row,
             { s with
               files := files1, storage := st1,
               permissions := s.permissions ++
                 [ownerPermFor fid (freshId (s.permissions.map (fun p => p.id))) uid tokenStr] })
        | some st2 =>
          if fl.insertPerm then
            (.error ⟨500, "File upload failed: permission insert"⟩,
             { s with
               files := files1.filter (fun f => decide (f.id ≠ fid)),
               storage := removePaths [vPath] (removePaths [fPath] st2) })
          else
            let vers1 :=
              if fl.insertVersion then s.fileVersions
              else
                s.fileVersions ++
                  [{ file_id := fid, version_number := 1, name := name, size := sz,
                     format := fmt, path := vPath, created_by := some uid }]
            (.ok row,
             { s with
               files := files1, storage := st2,
               permissions := s.permissions ++
                 [ownerPermFor fid (freshId (s.permissions.map (fun p => p.id))) uid tokenStr],
               fileVersions := vers1 })

/-- POST /upload of src/src/routes/files.ts (the legacy upload route):
insert the File row, put the main blob (rollback row), put the version
blob (FATAL: rollback main blob and row), insert the owner Permission
(rollback blobs and row), insert the version-1 FileVersion row (FATAL:
rollback blobs, row and permission). -/
def uploadLegacy (fl : UploadFaults) (uid : Nat) (name : String) (content : Blob)
    (sz : Nat) (fmt : String) (ts : Nat) (tokenStr : String)
    (s : State) : Except ApiError FileRow × State :=
  let key := mainPath uid ts name
  let fPath := "drive-files/" ++ key
  let vKey := "drive-files/versions/" ++ toString uid ++ "/" ++ toString ts ++ "_" ++ name
  if fl.insertFile then (.error ⟨500, "File upload failed: metadata insert"⟩, s)
  else
    let fid := freshId (s.files.map (fun f => f.id))
    let row : FileRow :=
      { id := fid, name := name, size := sz, format := fmt, path := fPath,
        user_id := uid, folder_id := none, deleted_at := none }
    let files1 := s.files ++ [row]
    match putBlob fl.mainPut key content s.storage with
    | none =>
      (.error ⟨500, "File upload failed: storage upload"⟩,
       { s with files := files1.filter (fun f => decide (f.id ≠ fid)) })
    | some st1 =>
      match putBlob fl.versionPut vKey content st1 with
      | none =>
        (.error ⟨500, "File upload failed: version storage upload"⟩,
         { s with
           files := files1.filter (fun f => decide (f.id ≠ fid)),
           storage := removePaths [key] st1 })
      | some st2 =>
        if fl.insertPerm then
          (.error ⟨500, "File upload failed: permission insert"⟩,
           { s with
             files := files1.filter (fun f => decide (f.id ≠ fid)),
             storage := removePaths [key, vKey] st2 })
        else
          let perms1 := s.permissions ++
            [ownerPermFor fid (freshId (s.permissions.map (fun p => p.id))) uid tokenStr]
          if fl.insertVersion then
            (.error ⟨500, "File upload failed: version insert"⟩,
             { s with
               files := files1.filter (fun f => decide (f.id ≠ fid)),
               storage := removePaths [key, vKey] st2,
               permissions := perms1.filter (fun p => decide (p.file_id ≠ fid)) })
          else
            (.ok row,
             { s with
               files := files1, storage := st2, permissions := perms1,
               fileVersions := s.fileVersions ++
                 [{ file_id := fid, version_number := 1, name := name, size := sz,
                    format := fmt, path := vKey, created_by := some uid }] })

theorem hasPath_of_mem (p : String) (b : Blob) (st : Storage) (h : (p, b) ∈ st) :
    hasPath p st = true :=
  List.any_eq_true.mpr ⟨(p, b), h, by simp⟩

theorem perms_filter_fresh (s : State) (href : permsRefFiles s = true)
    (perm : PermissionRow)
    (hpid : perm.file_id = freshId (s.files.map (fun f => f.id))) :
    (s.permissions ++ [perm]).filter
        (fun p => decide (p.file_id ≠ freshId (s.files.map (fun g => g.id)))) =
      s.permissions := by
  rw [List.filter_append]
  have h1 : s.permissions.filter
      (fun p => decide (p.file_id ≠ freshId (s.files.map (fun g => g.id)))) = s.permissions := by
    apply List.filter_eq_self.mpr
    intro p hp
    simp only [decide_eq_true_eq]
    have := List.all_eq_true.mp href p hp
    obtain ⟨f, hf, hfe⟩ := List.any_eq_true.mp this
    have hfe' : f.id = p.file_id := of_decide_eq_true hfe
    intro hcontra
    exact freshId_ne _ f.id (List.mem_map_of_mem _ hf) (by rw [hfe', hcontra])
  have h2 : [perm].filter
      (fun p => decide (p.file_id ≠ freshId (s.files.map (fun g => g.id)))) = [] := by
    simp [hpid]
  rw [h1, h2, List.append_nil]

theorem removePaths_notmem_cons (ps : List String) (p : String) (b : Blob) (st : Storage)
    (hp : p ∉ ps) : removePaths ps ((p, b) :: st) = (p, b) :: removePaths ps st := by
  unfold removePaths
  rw [List.filter_cons, if_pos (by simpa using hp)]

theorem uploadEnhanced_ok (fl : UploadFaults) (uid : Nat) (name : String)
    (content : Blob) (sz : Nat) (fmt : String) (folderId : Option Nat) (ts : Nat)
    (tokenStr : String) (s : State) (row : FileRow) (s' : State)
    (h : uploadEnhanced fl uid name content sz fmt folderId ts tokenStr s = (.ok row, s')) :
    row ∈ s'.files ∧ hasPath row.path s'.storage = true ∧
    ∃ p ∈ s'.permissions, p.file_id = row.id ∧ p.role = Role.owner := by
  unfold uploadEnhanced at h
  split at h
  · simp at h
  · split at h
    · simp at h
    · simp only [] at h
      cases hput1 : putBlob fl.mainPut (mainPath uid ts (sanitize name)) content s.storage with
      | none =>
        rw [hput1] at h
        simp at h
      | some st1 =>
        rw [hput1] at h
        simp only [] at h
        obtain ⟨hst1, -, -⟩ := putBlob_some _ _ _ _ _ hput1
        subst hst1
        cases hput2 : putBlob fl.versionPut (versionsPath uid ts (sanitize name)) content
            ((mainPath uid ts (sanitize name), content) :: s.storage) with
        | none =>
          rw [hput2] at h
          simp only [] at h
          split at h
          · simp at h
          · simp only [Prod.mk.injEq, Except.ok.injEq] at h
            obtain ⟨hrow, hstate⟩ := h
            subst hrow
            subst hstate
            exact ⟨List.mem_append_right _ (List.mem_singleton.mpr rfl),
              hasPath_of_mem _ content _ (List.mem_cons_self _ _),
              _, List.mem_append_right _ (List.mem_singleton.mpr rfl), rfl, rfl⟩
        | some st2 =>
          rw [hput2] at h
          simp only [] at h
          obtain ⟨hst2, -, -⟩ := putBlob_some _ _ _ _ _ hput2
          subst hst2
          split at h
          · simp at h
          · simp only [Prod.mk.injEq, Except.ok.injEq] at h
            obtain ⟨hrow, hstate⟩ := h
            subst hrow
            subst hstate
            exact ⟨List.mem_append_right _ (List.mem_singleton.mpr rfl),
              hasPath_of_mem _ content _ (List.mem_cons_of_mem _ (List.mem_cons_self _ _)),
              _, List.mem_append_right _ (List.mem_singleton.mpr rfl), rfl, rfl⟩

theorem uploadEnhanced_error (fl : UploadFaults) (uid : Nat) (name : String)
    (content : Blob) (sz : Nat) (fmt : String) (folderId : Option Nat) (ts : Nat)
    (tokenStr : String) (s : State) (e : ApiError) (s' : State)
    (h : uploadEnhanced fl uid name content sz fmt folderId ts tokenStr s = (.error e, s')) :
    s' = s := by
  have hfilter :=
    filter_append_fresh s.files
      { id := freshId (s.files.map (fun f => f.id)), name := name, size := sz,
        format := fmt, path := mainPath uid ts (sanitize name), user_id := uid,
        folder_id := folderId, deleted_at := none } rfl
  unfold uploadEnhanced at h
  split at h
  · simp only [Prod.mk.injEq] at h
    exact h.2.symm
  · split at h
    · simp only [Prod.mk.injEq] at h
      exact h.2.symm
    · simp only [] at h
      cases hput1 : putBlob fl.mainPut (mainPath uid ts (sanitize name)) content s.storage with
      | none =>
        rw [hput1] at h
        simp only [Prod.mk.injEq] at h
        rw [← h.2, hfilter]
      | some st1 =>
        rw [hput1] at h
        simp only [] at h
        obtain ⟨hst1, hfresh1, -⟩ := putBlob_some _ _ _ _ _ hput1
        subst hst1
        have hne1 := hasPath_false_ne _ _ hfresh1
        cases hput2 : putBlob fl.versionPut (versionsPath uid ts (sanitize name)) content
            ((mainPath uid ts (sanitize name), content) :: s.storage) with
        | none =>
          rw [hput2] at h
          simp only [] at h
          split at h
          · simp only [Prod.mk.injEq] at h
            rw [← h.2, hfilter,
              removePaths_cons_mem _ _ _ _ (List.mem_singleton.mpr rfl),
              removePaths_eq_self _ _ (fun x hx => by simpa using hne1 x hx)]
          · simp at h
        | some st2 =>
          rw [hput2] at h
          simp only [] at h
          obtain ⟨hst2, hfresh2, -⟩ := putBlob_some _ _ _ _ _ hput2
          subst hst2
          have hne2 := hasPath_false_ne _ _ hfresh2
          have hvm : versionsPath uid ts (sanitize name) ≠ mainPath uid ts (sanitize name) :=
            fun hc => hne2 _ (List.mem_cons_self _ _) hc.symm
          split at h
          · simp only [Prod.mk.injEq] at h
            rw [← h.2, hfilter,
              removePaths_notmem_cons _ _ _ _ (by simpa using fun hc => hvm hc),
              removePaths_cons_mem _ _ _ _ (List.mem_singleton.mpr rfl),
              removePaths_cons_mem _ _ _ _ (List.mem_singleton.mpr rfl),
              removePaths_eq_self _ _ (fun x hx => by
                simpa using hne2 x (List.mem_cons_of_mem _ (List.mem_of_mem_filter hx))),
              removePaths_eq_self _ _ (fun x hx => by simpa using hne1 x hx)]
          · simp at h

theorem uploadLegacy_ok (fl : UploadFaults) (uid : Nat) (name : String)
    (content : Blob) (sz : Nat) (fmt : String) (ts : Nat)
    (tokenStr : String) (s : State) (row : FileRow) (s' : State)
    (h : uploadLegacy fl uid name content sz fmt ts tokenStr s = (.ok row, s')) :
    row ∈ s'.files ∧ hasPath (mainPath uid ts name) s'.storage = true ∧
    ∃ p ∈ s'.permissions, p.file_id = row.id ∧ p.role = Role.owner := by
  unfold uploadLegacy at h
  split at h
  · simp at h
  · simp only [] at h
    cases hput1 : putBlob fl.mainPut (mainPath uid ts name) content s.storage with
    | none =>
      rw [hput1] at h
      simp at h
    | some st1 =>
      rw [hput1] at h
      simp only [] at h
      obtain ⟨hst1, -, -⟩ := putBlob_some _ _ _ _ _ hput1
      subst hst1
      cases hput2 : putBlob fl.versionPut
          ("drive-files/versions/" ++ toString uid ++ "/" ++ toString ts ++ "_" ++ name) content
          ((mainPath uid ts name, content) :: s.storage) with
      | none =>
        rw [hput2] at h
        simp at h
      | some st2 =>
        rw [hput2] at h
        simp only [] at h
        obtain ⟨hst2, -, -⟩ := putBlob_some _ _ _ _ _ hput2
        subst hst2
        split at h
        · simp at h
        · split at h
          · simp at h
          · simp only [Prod.mk.injEq, Except.ok.injEq] at h
            obtain ⟨hrow, hstate⟩ := h
            subst hrow
            subst hstate
            exact ⟨List.mem_append_right _ (List.mem_singleton.mpr rfl),
              hasPath_of_mem _ content _ (List.mem_cons_of_mem _ (List.mem_cons_self _ _)),
              _, List.mem_append_right _ (List.mem_singleton.mpr rfl), rfl, rfl⟩

theorem uploadLegacy_error (fl : UploadFaults) (uid : Nat) (name : String)
    (content : Blob) (sz : Nat) (fmt : String) (ts : Nat)
    (tokenStr : String) (s : State) (href : permsRefFiles s = true) (e : ApiError) (s' : State)
    (h : uploadLegacy fl uid name content sz fmt ts tokenStr s = (.error e, s')) :
    s' = s := by
  have hfilter :=
    filter_append_fresh s.files
      { id := freshId (s.files.map (fun f => f.id)), name := name, size := sz,
        format := fmt, path := "drive-files/" ++ mainPath uid ts name, user_id := uid,
        folder_id := none, deleted_at := none } rfl
  unfold uploadLegacy at h
  split at h
  · simp only [Prod.mk.injEq] at h
    exact h.2.symm
  · simp only [] at h
    cases hput1 : putBlob fl.mainPut (mainPath uid ts name) content s.storage with
    | none =>
      rw [hput1] at h
      simp only [Prod.mk.injEq] at h
      rw [← h.2, hfilter]
    | some st1 =>
      rw [hput1] at h
      simp only [] at h
      obtain ⟨hst1, hfresh1, -⟩ := putBlob_some _ _ _ _ _ hput1
      subst hst1
      have hne1 := hasPath_false_ne _ _ hfresh1
      cases hput2 : putBlob fl.versionPut
          ("drive-files/versions/" ++ toString uid ++ "/" ++ toString ts ++ "_" ++ name) content
          ((mainPath uid ts name, content) :: s.storage) with
      | none =>
        rw [hput2] at h
        simp only [Prod.mk.injEq] at h
        rw [← h.2, hfilter,
          removePaths_cons_mem _ _ _ _ (List.mem_singleton.mpr rfl),
          removePaths_eq_self _ _ (fun x hx => by simpa using hne1 x hx)]
      | some st2 =>
        rw [hput2] at h
        simp only [] at h
        obtain ⟨hst2, hfresh2, -⟩ := putBlob_some _ _ _ _ _ hput2
        subst hst2
        have hne2 := hasPath_false_ne _ _ hfresh2
        have hstor : removePaths [mainPath uid ts name,
            "drive-files/versions/" ++ toString uid ++ "/" ++ toString ts ++ "_" ++ name]
            (("drive-files/versions/" ++ toString uid ++ "/" ++ toString ts ++ "_" ++ name,
              content) :: (mainPath uid ts name, content) :: s.storage) = s.storage := by
          rw [removePaths_cons_mem _ _ _ _ (by simp),
            removePaths_cons_mem _ _ _ _ (by simp),
            removePaths_eq_self _ _ (by
              intro x hx
              have hx1 := hne1 x hx
              have hx2 := hne2 x (List.mem_cons_of_mem _ hx)
              simp only [List.mem_cons, List.mem_singleton, List.not_mem_nil]
              rintro (hc | hc | hc)
              · exact hx1 hc
              · exact hx2 hc
              · cases hc)]
        split at h
        · simp only [Prod.mk.injEq] at h
          rw [← h.2, hfilter, hstor]
        · split at h
          · simp only [Prod.mk.injEq] at h
            rw [← h.2, hfilter, hstor, perms_filter_fresh s href _ rfl]
          · simp at h

/-- C2: both upload routes are atomic at the metadata/blob level: a success
leaves the File row, a blob at the path the route uploaded, and an
owner-role Permission row in place, while any failure rolls the state back
to exactly the pre-call state (no File row, no orphan blob, no permission). -/
theorem upload_success_or_rollback (fl : UploadFaults) (uid : Nat) (name : String)
    (content : Blob) (sz : Nat) (fmt : String) (folderId : Option Nat) (ts : Nat)
    (tokenStr : String) (s : State) (href : permsRefFiles s = true) :
    (∀ row s', uploadEnhanced fl uid name content sz fmt folderId ts tokenStr s = (.ok row, s') →
       row ∈ s'.files ∧ hasPath row.path s'.storage = true ∧
       ∃ p ∈ s'.permissions, p.file_id = row.id ∧ p.role = Role.owner) ∧
    (∀ e s', uploadEnhanced fl uid name content sz fmt folderId ts tokenStr s = (.error e, s') →
       s' = s) ∧
    (∀ row s', uploadLegacy fl uid name content sz fmt ts tokenStr s = (.ok row, s') →
       row ∈ s'.files ∧ hasPath (mainPath uid ts name) s'.storage = true ∧
       ∃ p ∈ s'.permissions, p.file_id = row.id ∧ p.role = Role.owner) ∧
    (∀ e s', uploadLegacy fl uid name content sz fmt ts tokenStr s = (.error e, s') →
       s' = s) :=
  ⟨fun row s' h => uploadEnhanced_ok fl uid name content sz fmt folderId ts tokenStr s row s' h,
   fun e s' h => uploadEnhanced_error fl uid name content sz fmt folderId ts tokenStr s e s' h,
   fun row s' h => uploadLegacy_ok fl uid name content sz fmt ts tokenStr s row s' h,
   fun e s' h => uploadLegacy_error fl uid name content sz fmt ts tokenStr s href e s' h⟩

/-- Concrete empty state for the C2 witness. -/
def stateC2 : State := ⟨[], [], [], [], [], []⟩

/-- Witness for C2: a main-blob put failure leaves both routes back at the
pre-call state. -/
theorem upload_success_or_rollback_witness :
    (uploadEnhanced ⟨false, true, false, false, false⟩ 7 "a" [1] 1 "t" none 9 "k" stateC2).2 =
      stateC2 ∧
    (uploadLegacy ⟨false, true, false, false, false⟩ 7 "a" [1] 1 "t" 9 "k" stateC2).2 =
      stateC2 :=
  ⟨(upload_success_or_rollback ⟨false, true, false, false, false⟩ 7 "a" [1] 1 "t" none 9 "k"
      stateC2 (by decide)).2.1 _ _ rfl,
   (upload_success_or_rollback ⟨false, true, false, false, false⟩ 7 "a" [1] 1 "t" none 9 "k"
      stateC2 (by decide)).2.2.2 _ _ rfl⟩

/-- Counterexample for C5: on the legacy upload route, a failing version put
makes the whole upload fail (claim says it still succeeds), and the main
blob is rolled back (claim says nothing is rolled back). -/
theorem legacy_upload_versionPut_fatal :
    (uploadLegacy ⟨false, false, true, false, false⟩ 7 "report.pdf" [1, 2] 1024
        "application/pdf" 5 "tok" ⟨[], [], [], [], [], []⟩).1 =
      .error ⟨500, "File upload failed: version storage upload"⟩ ∧
    (uploadLegacy ⟨false, false, true, false, false⟩ 7 "report.pdf" [1, 2] 1024
        "application/pdf" 5 "tok" ⟨[], [], [], [], [], []⟩).2.storage = [] ∧
    (uploadLegacy ⟨false, false, true, false, false⟩ 7 "report.pdf" [1, 2] 1024
        "application/pdf" 5 "tok" ⟨[], [], [], [], [], []⟩).2.files = [] := by
  refine ⟨rfl, rfl, rfl⟩

/-- C5 (amended): on the enhanced upload route a failing version put is
non-fatal (the upload succeeds, the main blob stays, no FileVersion row is
inserted), and the FileVersion row appears exactly when the version put
succeeded; on the legacy upload route the same failure is fatal and fully
rolled back. -/
theorem versionPut_nonfatal_enhanced_only
    (uid : Nat) (name : String) (content : Blob) (sz : Nat) (fmt : String) (ts : Nat)
    (tokenStr : String) (s : State)
    (hmain : hasPath (mainPath uid ts (sanitize name)) s.storage = false)
    (hmainLeg : hasPath (mainPath uid ts name) s.storage = false)
    (hvfresh : hasPath (versionsPath uid ts (sanitize name))
      ((mainPath uid ts (sanitize name), content) :: s.storage) = false) :
    ((uploadEnhanced ⟨false, false, true, false, false⟩
        uid name content sz fmt none ts tokenStr s).1).isOk = true ∧
    (uploadEnhanced ⟨false, false, true, false, false⟩
        uid name content sz fmt none ts tokenStr s).2.storage =
      (mainPath uid ts (sanitize name), content) :: s.storage ∧
    (uploadEnhanced ⟨false, false, true, false, false⟩
        uid name content sz fmt none ts tokenStr s).2.fileVersions = s.fileVersions ∧
    (uploadEnhanced ⟨false, false, false, false, false⟩
        uid name content sz fmt none ts tokenStr s).2.fileVersions =
      s.fileVersions ++
        [⟨freshId (s.files.map (fun f => f.id)), 1, name, sz, fmt,
          versionsPath uid ts (sanitize name), some uid⟩] ∧
    (uploadLegacy ⟨false, false, true, false, false⟩
        uid name content sz fmt ts tokenStr s).1 =
      .error ⟨500, "File upload failed: version storage upload"⟩ ∧
    (uploadLegacy ⟨false, false, true, false, false⟩
        uid name content sz fmt ts tokenStr s).2 = s := by
  have hputMain : putBlob false (mainPath uid ts (sanitize name)) content s.storage =
      some ((mainPath uid ts (sanitize name), content) :: s.storage) := by
    simp [putBlob, hmain]
  have hputMainLeg : putBlob false (mainPath uid ts name) content s.storage =
      some ((mainPath uid ts name, content) :: s.storage) := by
    simp [putBlob, hmainLeg]
  have hputVer : putBlob false (versionsPath uid ts (sanitize name)) content
      ((mainPath uid ts (sanitize name), content) :: s.storage) =
      some ((versionsPath uid ts (sanitize name), content) ::
        (mainPath uid ts (sanitize name), content) :: s.storage) := by
    simp [putBlob, hvfresh]
  have hneLeg := hasPath_false_ne _ _ hmainLeg
  refine ⟨?_, ?_, ?_, ?_, ?_, ?_⟩
  · unfold uploadEnhanced
    simp [folderCheck, putBlob, hmain]
    rfl
  · unfold uploadEnhanced
    simp [folderCheck, putBlob, hmain]
  · unfold uploadEnhanced
    simp [folderCheck, putBlob, hmain]
  · unfold uploadEnhanced
    simp [folderCheck, putBlob, hmain, hvfresh]
  · unfold uploadLegacy
    simp [putBlob, hmainLeg]
  · unfold uploadLegacy
    simp only []
    rw [hputMainLeg]
    simp only []
    rw [show (putBlob true ("drive-files/versions/" ++ toString uid ++ "/" ++ toString ts
        ++ "_" ++ name) content ((mainPath uid ts name, content) :: s.storage)) =
        (none : Option Storage) from rfl]
    simp only []
    rw [filter_append_fresh s.files _ rfl,
      removePaths_cons_mem _ _ _ _ (List.mem_singleton.mpr rfl),
      removePaths_eq_self _ _ (fun x hx => by simpa using hneLeg x hx)]
    rfl

/-- Witness for the amended C5 on a concrete empty state. -/
theorem versionPut_nonfatal_enhanced_only_witness :
    ((uploadEnhanced ⟨false, false, true, false, false⟩
        7 "a" [1] 1 "t" none 9 "k" ⟨[], [], [], [], [], []⟩).1).isOk = true ∧
    (uploadEnhanced ⟨false, false, true, false, false⟩
        7 "a" [1] 1 "t" none 9 "k" ⟨[], [], [], [], [], []⟩).2.storage =
      (mainPath 7 9 (sanitize "a"), [1]) :: [] ∧
    (uploadEnhanced ⟨false, false, true, false, false⟩
        7 "a" [1] 1 "t" none 9 "k" ⟨[], [], [], [], [], []⟩).2.fileVersions = [] ∧
    (uploadEnhanced ⟨false, false, false, false, false⟩
        7 "a" [1] 1 "t" none 9 "k" ⟨[], [], [], [], [], []⟩).2.fileVersions =
      [] ++ [⟨freshId (([] : List FileRow).map (fun f => f.id)), 1, "a", 1, "t",
        versionsPath 7 9 (sanitize "a"), some 7⟩] ∧
    (uploadLegacy ⟨false, false, true, false, false⟩
        7 "a" [1] 1 "t" 9 "k" ⟨[], [], [], [], [], []⟩).1 =
      .error ⟨500, "File upload failed: version storage upload"⟩ ∧
    (uploadLegacy ⟨false, false, true, false, false⟩
        7 "a" [1] 1 "t" 9 "k" ⟨[], [], [], [], [], []⟩).2 = ⟨[], [], [], [], [], []⟩ :=
  versionPut_nonfatal_enhanced_only 7 "a" [1] 1 "t" 9 "k" ⟨[], [], [], [], [], []⟩
    (by decide) (by decide) (by decide)

/-- Index of the last dot in a list of characters, if any. -/
def lastDotAux : List Char → Option Nat → Nat → Option Nat
  | [], acc, _ => acc
  | c :: cs, acc, i => lastDotAux cs (if c = '.' then some i else acc) (i + 1)

/-- JavaScript path.extname/basename split: the extension starts at the last
dot, except when that dot is the first character (dotfiles have no extension). -/
def splitExt (nm : String) : String × String :=
  match lastDotAux nm.data none 0 with
  | none => (nm, "")
  | some 0 => (nm, "")
  | some i => (String.mk (nm.data.take i), String.mk (nm.data.drop i))

/-- Name given to the pasted copy of a file: basename - Copy + extension. -/
def copyFileName (nm : String) : String :=
  (splitExt nm).1 ++ " - Copy" ++ (splitExt nm).2

/-- Injected collaborator faults for one paste call. -/
structure PasteFaults where
  download : Bool
  upload : Bool
  insertFile : Bool
  moveFile : Bool
  moveFolder : Bool
  insertFolder : Bool
  insertPerm : Bool
deriving DecidableEq, Repr

/-- The item returned by a successful paste. -/
inductive PasteItem
  | file (f : FileRow)
  | folder (f : FolderRow)
deriving DecidableEq, Repr

/-- POST /paste/:folderId? of src/unnamed/part_008: read the clipboard entry
(404 when empty), validate the target folder, then dispatch on item kind and
operation. A cut is a single parent-reference update followed by deleting the
clipboard entry; a file copy downloads the source blob, uploads it at a fresh
path, inserts a new File row (removing the new blob when that insert fails)
and an owner permission whose failure is ignored; a folder copy inserts a
shallow duplicate row. Copy-paste never touches the clipboard. -/
def pasteP8 (fl : PasteFaults) (uid : Nat) (targetReq : Option Nat) (ts : Nat)
    (s : State) : Except ApiError PasteItem × State :=
  match s.clipboard.find? (fun e => decide (e.user_id = uid)) with
  | none => (.error ⟨404, "Clipboard empty"⟩, s)
  | some entry =>
    if folderCheck targetReq uid s = false then
      (.error ⟨404, "Target folder not found or access denied"⟩, s)
    else
      match entry.item_type, entry.operation with
      | .file, .cut =>
        match s.files.find? (fun f => decide (f.id = entry.item_id ∧ f.user_id = uid)) with
        | none => (.error ⟨500, "Failed to move file"⟩, s)
        | some f0 =>
          if fl.moveFile then (.error ⟨500, "Failed to move file"⟩, s)
          else
            (.ok (.file { f0 with folder_id := targetReq }),
             { s with
               files := s.files.map (fun f =>
                 if f.id = entry.item_id ∧ f.user_id = uid
                 then { f with folder_id := targetReq } else f),
               clipboard := s.clipboard.filter (fun e => decide (e.id ≠ entry.id)) })
      | .file, .copy =>
        match s.files.find? (fun f => decide (f.id = entry.item_id ∧ f.user_id = uid)) with
        | none => (.error ⟨404, "Original file not found"⟩, s)
        | some orig =>
          match (if fl.download then none else getBlob orig.path s.storage) with
          | none => (.error ⟨500, "Failed to copy file data"⟩, s)
          | some bytes =>
            match putBlob fl.upload (mainPath uid ts (sanitize (copyFileName orig.name)))
                bytes s.storage with
            | none => (.error ⟨500, "Failed to upload copied file"⟩, s)
            | some st1 =>
              if fl.insertFile then
                (.error ⟨500, "Failed to create file record"⟩,
                 { s with storage :=
                     removePaths [mainPath uid ts (sanitize (copyFileName orig.name))] st1 })
              else
                let nid := freshId (s.files.map (fun f => f.id))
                let newFile : FileRow :=
                  { id := nid, name := copyFileName orig.name, size := orig.size,
                    format := orig.format,
                    path := mainPath uid ts (sanitize (copyFileName orig.name)),
                    user_id := uid, folder_id := targetReq, deleted_at := none }
                (.ok (.file newFile),
                 { s with
                   files := s.files ++ [newFile], storage := st1,
                   permissions :=
                     if fl.insertPerm then s.permissions
                     else s.permissions ++
                       [ownerPermFor nid (freshId (s.permissions.map (fun p => p.id)))
                         uid ("copy-" ++ toString nid)] })
      | .folder, .cut =>
        match s.folders.find? (fun f => decide (f.id = entry.item_id ∧ f.user_id = uid)) with
        | none => (.error ⟨500, "Failed to move folder"⟩, s)
        | some f0 =>
          if fl.moveFolder then (.error ⟨500, "Failed to move folder"⟩, s)
          else
            (.ok (.folder { f0 with parent_id := targetReq }),
             { s with
               folders := s.folders.map (fun f =>
                 if f.id = entry.item_id ∧ f.user_id = uid
                 then { f with parent_id := targetReq } else f),
               clipboard := s.clipboard.filter (fun e => decide (e.id ≠ entry.id)) })
      | .folder, .copy =>
        match s.folders.find? (fun f => decide (f.id = entry.item_id ∧ f.user_id = uid)) with
        | none => (.error ⟨404, "Original folder not found"⟩, s)
        | some orig =>
          if fl.insertFolder then (.error ⟨500, "Failed to create folder copy"⟩, s)
          else
            let nid := freshId (s.folders.map (fun f => f.id))
            (.ok (.folder ⟨nid, orig.name ++ " - Copy", uid, targetReq, none⟩),
             { s with folders := s.folders ++
                 [⟨nid, orig.name ++ " - Copy", uid, targetReq, none⟩] })

/-- PATCH /:folderId of src/src/routes/folders.ts: rename and/or re-parent a
folder. The only cycle guard is the equality check folder = requested parent
(HTTP 400); a strictly descendant parent passes validation. -/
def patchFolder (fault : Bool) (uid folderId : Nat) (name : Option String)
    (parent : Option Nat) (s : State) : Except ApiError FolderRow × State :=
  if strTruthy name = false ∧ natTruthy parent = false then
    (.error ⟨400, "At least one of name or parent_id is required"⟩, s)
  else
    match s.folders.find? (fun f =>
        decide (f.id = folderId ∧ f.user_id = uid ∧ f.deleted_at = none)) with
    | none => (.error ⟨404, "Folder not found or unauthorized"⟩, s)
    | some f0 =>
      if natTruthy parent && decide (parent = some folderId) then
        (.error ⟨400, "Folder cannot be its own parent"⟩, s)
      else if natTruthy parent &&
          !(s.folders.find? (fun f =>
              decide (f.id = parent.getD 0 ∧ f.user_id = uid ∧ f.deleted_at = none))).isSome then
        (.error ⟨404, "Parent folder not found or unauthorized"⟩, s)
      else if fault then (.error ⟨500, "Folder update failed"⟩, s)
      else
        let newName := if strTruthy name then name.getD f0.name else f0.name
        let newParent :=
          if parent ≠ none then (if natTruthy parent then parent else none) else f0.parent_id
        (.ok { f0 with name := newName, parent_id := newParent },
         { s with folders := s.folders.map (fun f =>
             if f.id = folderId then { f with name := newName, parent_id := newParent } else f) })

/-- Live (non-deleted) subfolders of a folder. -/
def liveSubfolders (folderId : Nat) (s : State) : List FolderRow :=
  s.folders.filter (fun f => decide (f.parent_id = some folderId ∧ f.deleted_at = none))

/-- Live (non-deleted) files inside a folder. -/
def liveChildFiles (folderId : Nat) (s : State) : List FileRow :=
  s.files.filter (fun f => decide (f.folder_id = some folderId ∧ f.deleted_at = none))

/-- DELETE /:folderId of src/src/routes/folders.ts: refuse when the folder is
missing, deleted or foreign; refuse with the non-empty-folder conflict error
when any live child exists; otherwise set deleted_at. -/
def deleteFolder (fault : Bool) (uid folderId now : Nat) (s : State) :
    Except ApiError Unit × State :=
  match s.folders.find? (fun f =>
      decide (f.id = folderId ∧ f.user_id = uid ∧ f.deleted_at = none)) with
  | none => (.error ⟨404, "Folder not found or unauthorized"⟩, s)
  | some _ =>
    if (liveSubfolders folderId s).length ≠ 0 ∨ (liveChildFiles folderId s).length ≠ 0 then
      (.error ⟨400, "Cannot delete folder with subfolders or files"⟩, s)
    else if fault then (.error ⟨500, "Folder deletion failed"⟩, s)
    else
      (.ok (),
       { s with folders := s.folders.map (fun f =>
           if f.id = folderId then { f with deleted_at := some now } else f) })

/-- Marking applied by the file soft-delete update. -/
def markFileDeleted (fid now : Nat) (f : FileRow) : FileRow :=
  if f.id = fid then { f with deleted_at := some now } else f

/-- DELETE /:fileId of src/src/routes/files.ts: requires an owner-role
permission row for the caller; the files row is not filtered on deleted_at,
so an already-deleted file is deleted again; sets deleted_at to now. -/
def deleteFile (fault : Bool) (uid fid now : Nat) (s : State) :
    Except ApiError Unit × State :=
  match s.permissions.find? (fun p =>
      decide (p.file_id = fid ∧ p.user_id = some uid ∧ p.role = Role.owner)) with
  | none => (.error ⟨403, "Unauthorized: Only the owner can delete this file"⟩, s)
  | some _ =>
    if fault then (.error ⟨500, "File deletion failed"⟩, s)
    else (.ok (), { s with files := s.files.map (markFileDeleted fid now) })

/-- Maximum version_number among the file_versions rows of one file. -/
def maxVer (fid : Nat) : List FileVersionRow → Option Nat
  | [] => none
  | v :: vs =>
    match maxVer fid vs with
    | none => if v.file_id = fid then some v.version_number else none
    | some m => if v.file_id = fid then some (max v.version_number m) else some m

/-- Injected collaborator faults for one shared-edit call. -/
structure EditFaults where
  download : Bool
  versionPut : Bool
  versionInsert : Bool
  updateFile : Bool
deriving DecidableEq, Repr

/-- PATCH /share/:shareToken of src/unnamed/part_009: resolve an edit-role
token, compute next version number as previous max + 1 (1 when none),
download the current blob, put it at a fresh versions path, insert the
FileVersion row (removing the blob on failure), then rename the File row
(removing blob and version row on failure). -/
def editVersionPath (fuid ts : Nat) (nm : String) : String :=
  "versions/" ++ toString fuid ++ "/" ++ toString ts ++ "_" ++ nm

def editShared (fl : EditFaults) (tok : String) (newName : String) (ts : Nat)
    (s : State) : Except ApiError FileRow × State :=
  match s.permissions.find? (fun p =>
      decide (p.share_token = tok ∧ p.role = Role.edit)) with
  | none => (.error ⟨403, "Invalid share link or insufficient permissions"⟩, s)
  | some perm =>
    match findLiveFile perm.file_id s with
    | none => (.error ⟨404, "File not found or deleted"⟩, s)
    | some f =>
      let nextVersionNumber :=
        match maxVer f.id s.fileVersions with
        | some m => m + 1
        | none => 1
      match (if fl.download then none else getBlob f.path s.storage) with
      | none => (.error ⟨500, "Failed to download file for versioning"⟩, s)
      | some bytes =>
        match putBlob fl.versionPut (editVersionPath f.user_id ts newName) bytes s.storage with
        | none => (.error ⟨500, "Shared file update failed: version storage"⟩, s)
        | some st1 =>
          if fl.versionInsert then
            (.error ⟨500, "Shared file update failed: version insert"⟩,
             { s with storage := removePaths [editVersionPath f.user_id ts newName] st1 })
          else
            let v : FileVersionRow :=
              { file_id := f.id, version_number := nextVersionNumber, name := f.name,
                size := f.size, format := f.format,
                path := editVersionPath f.user_id ts newName, created_by := none }
            if fl.updateFile then
              (.error ⟨500, "Shared file update failed: file update"⟩,
               { s with
                 storage := removePaths [editVersionPath f.user_id ts newName] st1,
                 fileVersions := (s.fileVersions ++ [v]).filter (fun w =>
                   decide (¬(w.file_id = f.id ∧ w.version_number = nextVersionNumber))) })
            else
              (.ok { f with name := newName },
               { s with
                 files := s.files.map (fun g =>
                   if g.id = f.id then { g with name := newName } else g),
                 storage := st1, fileVersions := s.fileVersions ++ [v] })

/-- Ancestor test along the folder parent chain, with explicit fuel:
ancestorOf fs fuel anc node is true when anc appears on the parent chain of
node within fuel steps. -/
def ancestorOf (fs : List FolderRow) : Nat → Nat → Nat → Bool
  | 0, _, _ => false
  | fuel + 1, anc, node =>
    match fs.find? (fun f => decide (f.id = node)) with
    | none => false
    | some f =>
      match f.parent_id with
      | none => false
      | some p => decide (p = anc) || ancestorOf fs fuel anc p

/-- Folders for the C3 counterexample: B (id 2) is a child, hence a
descendant, of A (id 1); both belong to user 7. -/
def stateC3 : State :=
  ⟨[], [⟨1, "A", 7, none, none⟩, ⟨2, "B", 7, some 1, none⟩], [], [], [], []⟩

/-- State for the cut-paste half of the C3 counterexample: folder A is on
user 7 clipboard as a cut. -/
def stateC3b : State :=
  ⟨[], [⟨1, "A", 7, none, none⟩, ⟨2, "B", 7, some 1, none⟩], [], [],
   [⟨1, 7, 1, .folder, .cut⟩], []⟩

/-- Counterexample for C3: moving folder A under its own descendant B is not
refused. The folder-update route accepts it and rewrites the parent
reference (creating a cycle), and the cut-paste folder move does the same. -/
theorem folder_move_descendant_accepted :
    ancestorOf stateC3.folders 2 1 2 = true ∧
    (patchFolder false 7 1 none (some 2) stateC3).1 = .ok ⟨1, "A", 7, some 2, none⟩ ∧
    (patchFolder false 7 1 none (some 2) stateC3).2.folders =
      [⟨1, "A", 7, some 2, none⟩, ⟨2, "B", 7, some 1, none⟩] ∧
    (pasteP8 ⟨false, false, false, false, false, false, false⟩ 7 (some 2) 0 stateC3b).1 =
      .ok (.folder ⟨1, "A", 7, some 2, none⟩) ∧
    (pasteP8 ⟨false, false, false, false, false, false, false⟩ 7 (some 2) 0 stateC3b).2.folders =
      [⟨1, "A", 7, some 2, none⟩, ⟨2, "B", 7, some 1, none⟩] := by
  refine ⟨rfl, rfl, rfl, rfl, rfl⟩

/-- C3 (amended): the folder-update route rejects only a parent equal to the
folder itself (HTTP 400, state unchanged); any other live owned target
parent - a strict descendant included - passes validation and the parent
reference is rewritten; the cut-paste folder move applies no equality or
cycle check at all and re-parents the folder to any validated target. -/
theorem folder_move_guard_actual
    (uid1 fid1 : Nat) (s1 : State) (f1 : FolderRow)
    (h1 : s1.folders.find? (fun f =>
      decide (f.id = fid1 ∧ f.user_id = uid1 ∧ f.deleted_at = none)) = some f1)
    (h1pos : 0 < fid1)
    (uid2 fid2 p2 : Nat) (s2 : State) (f2 : FolderRow)
    (h2 : s2.folders.find? (fun f =>
      decide (f.id = fid2 ∧ f.user_id = uid2 ∧ f.deleted_at = none)) = some f2)
    (h2p : (s2.folders.find? (fun f =>
      decide (f.id = p2 ∧ f.user_id = uid2 ∧ f.deleted_at = none))).isSome = true)
    (h2ne : p2 ≠ fid2) (h2pos : 0 < p2)
    (uid3 t3 ts3 : Nat) (s3 : State) (e3 : ClipboardRow) (f3 : FolderRow)
    (h3c : s3.clipboard.find? (fun e => decide (e.user_id = uid3)) = some e3)
    (h3t : e3.item_type = .folder) (h3o : e3.operation = .cut)
    (h3tf : folderCheck (some t3) uid3 s3 = true)
    (h3f : s3.folders.find? (fun f =>
      decide (f.id = e3.item_id ∧ f.user_id = uid3)) = some f3) :
    patchFolder false uid1 fid1 none (some fid1) s1 =
      (.error ⟨400, "Folder cannot be its own parent"⟩, s1) ∧
    (patchFolder false uid2 fid2 none (some p2) s2).1 =
      .ok { f2 with parent_id := some p2 } ∧
    (pasteP8 ⟨false, false, false, false, false, false, false⟩ uid3 (some t3) ts3 s3).1 =
      .ok (.folder { f3 with parent_id := some t3 }) := by
  refine ⟨?_, ?_, ?_⟩
  · unfold patchFolder
    rw [if_neg (by simp [natTruthy]; omega)]
    rw [h1]
    simp only []
    rw [if_pos (by simp [natTruthy]; omega)]
  · unfold patchFolder
    rw [if_neg (by simp [natTruthy]; omega)]
    rw [h2]
    simp only []
    rw [if_neg (by simp [natTruthy, h2ne])]
    rw [if_neg (by
      simp only [Option.getD_some, h2p, Bool.not_true, Bool.and_false]
      simp)]
    rw [if_neg (by simp)]
    simp [strTruthy, natTruthy, Nat.pos_iff_ne_zero.mp h2pos]
  · unfold pasteP8
    rw [h3c]
    simp only []
    rw [if_neg (by simp [h3tf])]
    rw [h3t, h3o]
    simp only []
    rw [h3f]
    rfl

/-- Witness for the amended C3 on concrete folder trees. -/
theorem folder_move_guard_actual_witness :
    patchFolder false 7 1 none (some 1) stateC3 =
      (.error ⟨400, "Folder cannot be its own parent"⟩, stateC3) ∧
    (patchFolder false 7 1 none (some 2) stateC3).1 =
      .ok { FolderRow.mk 1 "A" 7 none none with parent_id := some 2 } ∧
    (pasteP8 ⟨false, false, false, false, false, false, false⟩ 7 (some 2) 0 stateC3b).1 =
      .ok (.folder { FolderRow.mk 1 "A" 7 none none with parent_id := some 2 }) :=
  folder_move_guard_actual
    7 1 stateC3 ⟨1, "A", 7, none, none⟩ (by decide) (by decide)
    7 1 2 stateC3 ⟨1, "A", 7, none, none⟩ (by decide) (by decide) (by decide) (by decide)
    7 2 0 stateC3b ⟨1, 7, 1, .folder, .cut⟩ ⟨1, "A", 7, none, none⟩
    (by decide) (by decide) (by decide) (by decide) (by decide)

/-- C7: deleting a folder that still has a live child (file or subfolder)
fails with the non-empty-folder refusal (the ConflictError of the spec
taxonomy, HTTP 400 here) and the state - hence the folder's null deleted_at -
is untouched; once every child is soft-deleted the same delete succeeds and
sets deleted_at. -/
theorem folder_delete_children_guard
    (uid1 fid1 now1 : Nat) (s1 : State) (f1 : FolderRow)
    (h1 : s1.folders.find? (fun f =>
      decide (f.id = fid1 ∧ f.user_id = uid1 ∧ f.deleted_at = none)) = some f1)
    (hchild : (liveSubfolders fid1 s1).length ≠ 0 ∨ (liveChildFiles fid1 s1).length ≠ 0)
    (uid2 fid2 now2 : Nat) (s2 : State) (f2 : FolderRow)
    (h2 : s2.folders.find? (fun f =>
      decide (f.id = fid2 ∧ f.user_id = uid2 ∧ f.deleted_at = none)) = some f2)
    (hnosub : (liveSubfolders fid2 s2).length = 0)
    (hnofile : (liveChildFiles fid2 s2).length = 0) :
    deleteFolder false uid1 fid1 now1 s1 =
      (.error ⟨400, "Cannot delete folder with subfolders or files"⟩, s1) ∧
    (deleteFolder false uid2 fid2 now2 s2).1 = .ok () ∧
    { f2 with deleted_at := some now2 } ∈ (deleteFolder false uid2 fid2 now2 s2).2.folders := by
  have hf2id : f2.id = fid2 := by
    have := List.find?_some h2
    simp only [decide_eq_true_eq] at this
    exact this.1
  have hf2mem : f2 ∈ s2.folders := List.mem_of_find?_eq_some h2
  refine ⟨?_, ?_, ?_⟩
  · unfold deleteFolder
    rw [h1]
    simp only []
    rw [if_pos hchild]
  · unfold deleteFolder
    rw [h2]
    simp only []
    rw [if_neg (by simp [hnosub, hnofile]), if_neg (by simp)]
  · unfold deleteFolder
    rw [h2]
    simp only []
    rw [if_neg (by simp [hnosub, hnofile]), if_neg (by simp)]
    have himg : ({ f2 with deleted_at := some now2 } : FolderRow) =
        (fun f => if f.id = fid2 then { f with deleted_at := some now2 } else f) f2 := by
      simp [hf2id]
    rw [himg]
    exact List.mem_map_of_mem _ hf2mem

/-- Concrete states for the C7 witness: folder 1 of user 7 holding file 9,
first live, then soft-deleted. -/
def stateC7a : State :=
  ⟨[⟨9, "doc", 1, "t", "7/9", 7, some 1, none⟩], [⟨1, "A", 7, none, none⟩],
   [], [], [], []⟩

def stateC7b : State :=
  ⟨[⟨9, "doc", 1, "t", "7/9", 7, some 1, some 4⟩], [⟨1, "A", 7, none, none⟩],
   [], [], [], []⟩

/-- Witness for C7: refusal with a live child, success (deleted_at set) after
the child is soft-deleted. -/
theorem folder_delete_children_guard_witness :
    deleteFolder false 7 1 5 stateC7a =
      (.error ⟨400, "Cannot delete folder with subfolders or files"⟩, stateC7a) ∧
    (deleteFolder false 7 1 5 stateC7b).1 = .ok () ∧
    { FolderRow.mk 1 "A" 7 none none with deleted_at := some 5 } ∈
      (deleteFolder false 7 1 5 stateC7b).2.folders :=
  folder_delete_children_guard
    7 1 5 stateC7a ⟨1, "A", 7, none, none⟩ (by decide) (by decide)
    7 1 5 stateC7b ⟨1, "A", 7, none, none⟩ (by decide) (by decide) (by decide)

/-- Concrete state for the C8 counterexample: one live file owned by user 7
with an owner permission row. -/
def stateC8 : State :=
  ⟨[⟨1, "doc", 10, "text/plain", "7/1_doc", 7, none, none⟩], [],
   [⟨1, 1, some 7, .owner, "tk8", true, true, none, none, 0⟩], [], [],
   [("7/1_doc", [0])]⟩

/-- Counterexample for C8: the file soft-delete route does not exclude
already-deleted files, so a second SoftDelete succeeds and overwrites
deleted_at (3 becomes 5), refuting set-at-most-once. -/
theorem file_softDelete_overwrite :
    (deleteFile false 7 1 3 stateC8).1 = .ok () ∧
    (deleteFile false 7 1 3 stateC8).2.files =
      [⟨1, "doc", 10, "text/plain", "7/1_doc", 7, none, some 3⟩] ∧
    (deleteFile false 7 1 5 ((deleteFile false 7 1 3 stateC8).2)).1 = .ok () ∧
    (deleteFile false 7 1 5 ((deleteFile false 7 1 3 stateC8).2)).2.files =
      [⟨1, "doc", 10, "text/plain", "7/1_doc", 7, none, some 5⟩] := by
  refine ⟨rfl, rfl, rfl, rfl⟩

/-- C8 (amended): a successful file SoftDelete rewrites the files table with
markFileDeleted, which sets the target's deleted_at to the call timestamp
and never returns a row to null: a row already carrying some t keeps a
non-null deleted_at (the new timestamp for the target, the old value
otherwise). Set-at-most-once fails only because a repeated delete replaces
the timestamp (see the counterexample). -/
theorem file_softDelete_never_null (uid fid now t : Nat) (s : State) (s' : State)
    (h : deleteFile false uid fid now s = (.ok (), s')) (f : FileRow)
    (hfd : f.deleted_at = some t) :
    s'.files = s.files.map (markFileDeleted fid now) ∧
    ((markFileDeleted fid now f).deleted_at = some now ∨
     (markFileDeleted fid now f).deleted_at = some t) := by
  constructor
  · unfold deleteFile at h
    split at h
    · simp at h
    · rw [if_neg (by simp)] at h
      simp only [Prod.mk.injEq] at h
      rw [← h.2]
  · unfold markFileDeleted
    by_cases hc : f.id = fid
    · left
      simp [hc]
    · right
      simp [hc, hfd]

/-- Witness for the amended C8 on the concrete state. -/
theorem file_softDelete_never_null_witness :
    (deleteFile false 7 1 5 ((deleteFile false 7 1 3 stateC8).2)).2.files =
      ((deleteFile false 7 1 3 stateC8).2).files.map (markFileDeleted 1 5) ∧
    ((markFileDeleted 1 5 ⟨1, "doc", 10, "text/plain", "7/1_doc", 7, none, some 3⟩).deleted_at =
        some 5 ∨
     (markFileDeleted 1 5 ⟨1, "doc", 10, "text/plain", "7/1_doc", 7, none, some 3⟩).deleted_at =
        some 3) :=
  file_softDelete_never_null 7 1 5 3 ((deleteFile false 7 1 3 stateC8).2)
    ((deleteFile false 7 1 5 ((deleteFile false 7 1 3 stateC8).2)).2)
    rfl ⟨1, "doc", 10, "text/plain", "7/1_doc", 7, none, some 3⟩ rfl

theorem maxVer_none (fid : Nat) (l : List FileVersionRow)
    (h : ∀ w ∈ l, w.file_id ≠ fid) : maxVer fid l = none := by
  induction l with
  | nil => rfl
  | cons v vs ih =>
    have hv : v.file_id ≠ fid := h v (List.mem_cons_self _ _)
    have ihs := ih (fun w hw => h w (List.mem_cons_of_mem _ hw))
    unfold maxVer
    rw [ihs, if_neg hv]

theorem maxVer_le (fid : Nat) (w : FileVersionRow) (hf : w.file_id = fid) :
    ∀ (l : List FileVersionRow), w ∈ l →
      ∃ m, maxVer fid l = some m ∧ w.version_number ≤ m := by
  intro l
  induction l with
  | nil => intro hw; cases hw
  | cons v vs ih =>
    intro hw
    rcases List.mem_cons.mp hw with hw | hw
    · cases hrec : maxVer fid vs with
      | none =>
        refine ⟨w.version_number, ?_, Nat.le_refl _⟩
        unfold maxVer
        rw [hrec, ← hw]
        simp [hf]
      | some m =>
        refine ⟨max w.version_number m, ?_, Nat.le_max_left _ _⟩
        unfold maxVer
        rw [hrec, ← hw]
        simp [hf]
    · obtain ⟨m, hm, hle⟩ := ih hw
      by_cases hv : v.file_id = fid
      · refine ⟨max v.version_number m, ?_, Nat.le_trans hle (Nat.le_max_right _ _)⟩
        unfold maxVer
        rw [hm]
        simp [hv]
      · refine ⟨m, ?_, hle⟩
        unfold maxVer
        rw [hm]
        simp [hv]

theorem versions_ne_fresh (s : State) (hvref : versionsRefFiles s = true) :
    ∀ w ∈ s.fileVersions, w.file_id ≠ freshId (s.files.map (fun f => f.id)) := by
  intro w hw
  have := List.all_eq_true.mp hvref w hw
  obtain ⟨f, hf, hfe⟩ := List.any_eq_true.mp this
  have hfe' : f.id = w.file_id := of_decide_eq_true hfe
  intro hcontra
  exact freshId_ne _ f.id (List.mem_map_of_mem _ hf) (by rw [hfe', hcontra])

/-- C9: the enhanced upload inserts the first FileVersion of the fresh file
with version_number 1 (no earlier version exists for that file id), and the
shared edit (edit-role token) inserts a FileVersion numbered previous max + 1
(1 when none), which is strictly above every earlier version_number of that
file. -/
theorem version_numbers_strictly_increasing
    (uid : Nat) (name : String) (content : Blob) (sz : Nat) (fmt : String) (ts : Nat)
    (tokenStr : String) (s : State) (row : FileRow) (s' : State)
    (hvref : versionsRefFiles s = true)
    (hmain : hasPath (mainPath uid ts (sanitize name)) s.storage = false)
    (hvfresh : hasPath (versionsPath uid ts (sanitize name))
      ((mainPath uid ts (sanitize name), content) :: s.storage) = false)
    (h : uploadEnhanced ⟨false, false, false, false, false⟩ uid name content sz fmt none ts
      tokenStr s = (.ok row, s'))
    (fe : EditFaults) (tok newName : String) (ts2 : Nat) (s2 : State)
    (g : FileRow) (s2' : State) (perm : PermissionRow) (fOld : FileRow)
    (hpe : s2.permissions.find? (fun p =>
      decide (p.share_token = tok ∧ p.role = Role.edit)) = some perm)
    (hfo : findLiveFile perm.file_id s2 = some fOld)
    (he : editShared fe tok newName ts2 s2 = (.ok g, s2'))
    (w : FileVersionRow) (hw : w ∈ s2.fileVersions) (hwf : w.file_id = fOld.id) :
    maxVer row.id s.fileVersions = none ∧
    s'.fileVersions = s.fileVersions ++
      [⟨row.id, 1, name, sz, fmt, versionsPath uid ts (sanitize name), some uid⟩] ∧
    g = { fOld with name := newName } ∧
    s2'.fileVersions = s2.fileVersions ++
      [⟨fOld.id, (match maxVer fOld.id s2.fileVersions with | some m => m + 1 | none => 1),
        fOld.name, fOld.size, fOld.format, editVersionPath fOld.user_id ts2 newName, none⟩] ∧
    w.version_number <
      (match maxVer fOld.id s2.fileVersions with | some m => m + 1 | none => 1) := by
  have hup : uploadEnhanced ⟨false, false, false, false, false⟩ uid name content sz fmt none ts
      tokenStr s =
      (.ok
        { id := freshId (s.files.map (fun f => f.id)), name := name, size := sz,
          format := fmt, path := mainPath uid ts (sanitize name), user_id := uid,
          folder_id := none, deleted_at := none },
       (uploadEnhanced ⟨false, false, false, false, false⟩ uid name content sz fmt none ts
          tokenStr s).2) := by
    unfold uploadEnhanced
    simp [folderCheck, putBlob, hmain, hvfresh]
  have hrow : row =
      { id := freshId (s.files.map (fun f => f.id)), name := name, size := sz,
        format := fmt, path := mainPath uid ts (sanitize name), user_id := uid,
        folder_id := none, deleted_at := none } := by
    have := hup.symm.trans h
    simp only [Prod.mk.injEq, Except.ok.injEq] at this
    exact this.1.symm
  refine ⟨?_, ?_, ?_, ?_, ?_⟩
  · rw [hrow]
    exact maxVer_none _ _ (versions_ne_fresh s hvref)
  · have hs' : s' = (uploadEnhanced ⟨false, false, false, false, false⟩ uid name content sz fmt
        none ts tokenStr s).2 := by
      have := hup.symm.trans h
      simp only [Prod.mk.injEq] at this
      exact this.2.symm
    rw [hs', hrow]
    unfold uploadEnhanced
    simp [folderCheck, putBlob, hmain, hvfresh]
  · unfold editShared at he
    rw [hpe] at he
    simp only [] at he
    rw [hfo] at he
    simp only [] at he
    cases hdl : (if fe.download then none else getBlob fOld.path s2.storage) with
    | none =>
      rw [hdl] at he
      simp at he
    | some bytes =>
      rw [hdl] at he
      simp only [] at he
      cases hput : putBlob fe.versionPut (editVersionPath fOld.user_id ts2 newName) bytes
          s2.storage with
      | none =>
        rw [hput] at he
        simp at he
      | some st1 =>
        rw [hput] at he
        simp only [] at he
        split at he
        · simp at he
        · split at he
          · simp at he
          · simp only [Prod.mk.injEq, Except.ok.injEq] at he
            exact he.1.symm
  · unfold editShared at he
    rw [hpe] at he
    simp only [] at he
    rw [hfo] at he
    simp only [] at he
    cases hdl : (if fe.download then none else getBlob fOld.path s2.storage) with
    | none =>
      rw [hdl] at he
      simp at he
    | some bytes =>
      rw [hdl] at he
      simp only [] at he
      cases hput : putBlob fe.versionPut (editVersionPath fOld.user_id ts2 newName) bytes
          s2.storage with
      | none =>
        rw [hput] at he
        simp at he
      | some st1 =>
        rw [hput] at he
        simp only [] at he
        split at he
        · simp at he
        · split at he
          · simp at he
          · simp only [Prod.mk.injEq, Except.ok.injEq] at he
            rw [← he.2]
  · obtain ⟨m, hm, hle⟩ := maxVer_le fOld.id w hwf s2.fileVersions hw
    rw [hm]
    exact Nat.lt_succ_of_le hle

/-- Concrete states for the C9 witness: an empty state for the upload half,
and a state with an edit token, a live file and one existing version for the
edit half. -/
def stateC9 : State :=
  ⟨[⟨3, "n", 2, "t", "7/1_n", 7, none, none⟩], [],
   [⟨1, 3, none, .edit, "e", true, true, none, none, 0⟩],
   [⟨3, 1, "n", 2, "t", "versions/7/0_n", some 7⟩], [],
   [("7/1_n", [5])]⟩

/-- Witness for C9: upload on an empty state creates version 1; an edit on a
file already holding version 1 inserts version 2, strictly above 1. -/
theorem version_numbers_strictly_increasing_witness :
    maxVer (FileRow.id ⟨1, "a", 1, "t", mainPath 7 9 (sanitize "a"), 7, none, none⟩)
      ([] : List FileVersionRow) = none ∧
    (uploadEnhanced ⟨false, false, false, false, false⟩ 7 "a" [1] 1 "t" none 9 "k"
        ⟨[], [], [], [], [], []⟩).2.fileVersions =
      [] ++ [⟨FileRow.id ⟨1, "a", 1, "t", mainPath 7 9 (sanitize "a"), 7, none, none⟩, 1,
        "a", 1, "t", versionsPath 7 9 (sanitize "a"), some 7⟩] ∧
    FileRow.mk 3 "m" 2 "t" "7/1_n" 7 none none =
      { FileRow.mk 3 "n" 2 "t" "7/1_n" 7 none none with name := "m" } ∧
    (editShared ⟨false, false, false, false⟩ "e" "m" 4 stateC9).2.fileVersions =
      stateC9.fileVersions ++
        [⟨3, (match maxVer 3 stateC9.fileVersions with | some m => m + 1 | none => 1),
          "n", 2, "t", editVersionPath 7 4 "m", none⟩] ∧
    FileVersionRow.version_number ⟨3, 1, "n", 2, "t", "versions/7/0_n", some 7⟩ <
      (match maxVer 3 stateC9.fileVersions with | some m => m + 1 | none => 1) :=
  version_numbers_strictly_increasing 7 "a" [1] 1 "t" 9 "k" ⟨[], [], [], [], [], []⟩
    ⟨1, "a", 1, "t", mainPath 7 9 (sanitize "a"), 7, none, none⟩
    (uploadEnhanced ⟨false, false, false, false, false⟩ 7 "a" [1] 1 "t" none 9 "k"
      ⟨[], [], [], [], [], []⟩).2
    (by decide) (by decide) (by decide) rfl
    ⟨false, false, false, false⟩ "e" "m" 4 stateC9
    ⟨3, "m", 2, "t", "7/1_n", 7, none, none⟩
    (editShared ⟨false, false, false, false⟩ "e" "m" 4 stateC9).2
    ⟨1, 3, none, .edit, "e", true, true, none, none, 0⟩
    ⟨3, "n", 2, "t", "7/1_n", 7, none, none⟩
    (by decide) (by decide) rfl
    ⟨3, 1, "n", 2, "t", "versions/7/0_n", some 7⟩ (by decide) (by decide)

theorem folderCheck_only_folders (t : Option Nat) (uid : Nat) (s s' : State)
    (h : s'.folders = s.folders) : folderCheck t uid s' = folderCheck t uid s := by
  unfold folderCheck
  cases t with
  | none => rfl
  | some tf => rw [h]

theorem pasteP8_empty (fl : PasteFaults) (uid : Nat) (targetReq : Option Nat) (ts : Nat)
    (s : State)
    (h : s.clipboard.find? (fun e => decide (e.user_id = uid)) = none) :
    pasteP8 fl uid targetReq ts s = (.error ⟨404, "Clipboard empty"⟩, s) := by
  unfold pasteP8
  rw [h]

theorem find?_user_after_consume (l : List ClipboardRow) (uid : Nat) (entry : ClipboardRow)
    (honly : l.filter (fun e => decide (e.user_id = uid)) = [entry]) :
    (l.filter (fun e => decide (e.id ≠ entry.id))).find?
      (fun e => decide (e.user_id = uid)) = none := by
  rw [List.find?_eq_none]
  intro e he
  have hmem := List.mem_filter.mp he
  intro hu
  have : e ∈ l.filter (fun x => decide (x.user_id = uid)) :=
    List.mem_filter.mpr ⟨hmem.1, hu⟩
  rw [honly] at this
  have he' : e = entry := List.mem_singleton.mp this
  have := hmem.2
  rw [he'] at this
  simp at this

theorem pasteP8_cut_consumes (fl : PasteFaults) (uid : Nat) (targetReq : Option Nat)
    (ts : Nat) (s : State) (entry : ClipboardRow) (it : PasteItem) (s1 : State)
    (hfind : s.clipboard.find? (fun e => decide (e.user_id = uid)) = some entry)
    (hcut : entry.operation = .cut)
    (hok : pasteP8 fl uid targetReq ts s = (.ok it, s1)) :
    s1.clipboard = s.clipboard.filter (fun e => decide (e.id ≠ entry.id)) := by
  unfold pasteP8 at hok
  rw [hfind] at hok
  simp only [] at hok
  split at hok
  · simp at hok
  · cases htype : entry.item_type with
    | file =>
      rw [htype, hcut] at hok
      simp only [] at hok
      cases hff : s.files.find? (fun f => decide (f.id = entry.item_id ∧ f.user_id = uid)) with
      | none =>
        rw [hff] at hok
        simp at hok
      | some f0 =>
        rw [hff] at hok
        simp only [] at hok
        split at hok
        · simp at hok
        · simp only [Prod.mk.injEq] at hok
          rw [← hok.2]
    | folder =>
      rw [htype, hcut] at hok
      simp only [] at hok
      cases hff : s.folders.find? (fun f => decide (f.id = entry.item_id ∧ f.user_id = uid)) with
      | none =>
        rw [hff] at hok
        simp at hok
      | some f0 =>
        rw [hff] at hok
        simp only [] at hok
        split at hok
        · simp at hok
        · simp only [Prod.mk.injEq] at hok
          rw [← hok.2]

theorem pasteP8_copy_intact (fl : PasteFaults) (uid : Nat) (targetReq : Option Nat)
    (ts : Nat) (s : State) (entry : ClipboardRow) (it : PasteItem) (s1 : State)
    (hfind : s.clipboard.find? (fun e => decide (e.user_id = uid)) = some entry)
    (hcopy : entry.operation = .copy)
    (hok : pasteP8 fl uid targetReq ts s = (.ok it, s1)) :
    s1.clipboard = s.clipboard := by
  unfold pasteP8 at hok
  rw [hfind] at hok
  simp only [] at hok
  split at hok
  · simp at hok
  · cases htype : entry.item_type with
    | file =>
      rw [htype, hcopy] at hok
      simp only [] at hok
      cases hff : s.files.find? (fun f => decide (f.id = entry.item_id ∧ f.user_id = uid)) with
      | none =>
        rw [hff] at hok
        simp at hok
      | some orig =>
        rw [hff] at hok
        simp only [] at hok
        cases hdl : (if fl.download then none else getBlob orig.path s.storage) with
        | none =>
          rw [hdl] at hok
          simp at hok
        | some bytes =>
          rw [hdl] at hok
          simp only [] at hok
          cases hput : putBlob fl.upload (mainPath uid ts (sanitize (copyFileName orig.name)))
              bytes s.storage with
          | none =>
            rw [hput] at hok
            simp at hok
          | some st1 =>
            rw [hput] at hok
            simp only [] at hok
            split at hok
            · simp at hok
            · simp only [Prod.mk.injEq] at hok
              rw [← hok.2]
    | folder =>
      rw [htype, hcopy] at hok
      simp only [] at hok
      cases hff : s.folders.find? (fun f => decide (f.id = entry.item_id ∧ f.user_id = uid)) with
      | none =>
        rw [hff] at hok
        simp at hok
      | some orig =>
        rw [hff] at hok
        simp only [] at hok
        split at hok
        · simp at hok
        · simp only [Prod.mk.injEq] at hok
          rw [← hok.2]

theorem pasteP8_error_clipboard (fl : PasteFaults) (uid : Nat) (targetReq : Option Nat)
    (ts : Nat) (s : State) (e2 : ApiError) (s2 : State)
    (herr : pasteP8 fl uid targetReq ts s = (.error e2, s2)) :
    s2.clipboard = s.clipboard := by
  unfold pasteP8 at herr
  cases hcf : s.clipboard.find? (fun e => decide (e.user_id = uid)) with
  | none =>
    rw [hcf] at herr
    simp only [Prod.mk.injEq] at herr
    rw [← herr.2]
  | some entry =>
    rw [hcf] at herr
    simp only [] at herr
    split at herr
    · simp only [Prod.mk.injEq] at herr
      rw [← herr.2]
    · cases htype : entry.item_type with
      | file =>
        cases hop : entry.operation with
        | cut =>
          rw [htype, hop] at herr
          simp only [] at herr
          cases hff : s.files.find? (fun f =>
              decide (f.id = entry.item_id ∧ f.user_id = uid)) with
          | none =>
            rw [hff] at herr
            simp only [Prod.mk.injEq] at herr
            rw [← herr.2]
          | some f0 =>
            rw [hff] at herr
            simp only [] at herr
            split at herr
            · simp only [Prod.mk.injEq] at herr
              rw [← herr.2]
            · simp at herr
        | copy =>
          rw [htype, hop] at herr
          simp only [] at herr
          cases hff : s.files.find? (fun f =>
              decide (f.id = entry.item_id ∧ f.user_id = uid)) with
          | none =>
            rw [hff] at herr
            simp only [Prod.mk.injEq] at herr
            rw [← herr.2]
          | some orig =>
            rw [hff] at herr
            simp only [] at herr
            cases hdl : (if fl.download then none else getBlob orig.path s.storage) with
            | none =>
              rw [hdl] at herr
              simp only [Prod.mk.injEq] at herr
              rw [← herr.2]
            | some bytes =>
              rw [hdl] at herr
              simp only [] at herr
              cases hput : putBlob fl.upload
                  (mainPath uid ts (sanitize (copyFileName orig.name))) bytes s.storage with
              | none =>
                rw [hput] at herr
                simp only [Prod.mk.injEq] at herr
                rw [← herr.2]
              | some st1 =>
                rw [hput] at herr
                simp only [] at herr
                split at herr
                · simp only [Prod.mk.injEq] at herr
                  rw [← herr.2]
                · simp at herr
      | folder =>
        cases hop : entry.operation with
        | cut =>
          rw [htype, hop] at herr
          simp only [] at herr
          cases hff : s.folders.find? (fun f =>
              decide (f.id = entry.item_id ∧ f.user_id = uid)) with
          | none =>
            rw [hff] at herr
            simp only [Prod.mk.injEq] at herr
            rw [← herr.2]
          | some f0 =>
            rw [hff] at herr
            simp only [] at herr
            split at herr
            · simp only [Prod.mk.injEq] at herr
              rw [← herr.2]
            · simp at herr
        | copy =>
          rw [htype, hop] at herr
          simp only [] at herr
          cases hff : s.folders.find? (fun f =>
              decide (f.id = entry.item_id ∧ f.user_id = uid)) with
          | none =>
            rw [hff] at herr
            simp only [Prod.mk.injEq] at herr
            rw [← herr.2]
          | some orig =>
            rw [hff] at herr
            simp only [] at herr
            split at herr
            · simp only [Prod.mk.injEq] at herr
              rw [← herr.2]
            · simp at herr

theorem getBlob_cons_ne (p q : String) (b : Blob) (st : Storage) (h : q ≠ p) :
    getBlob p ((q, b) :: st) = getBlob p st := by
  unfold getBlob
  rw [List.find?_cons_of_neg _ (by simpa using h)]

theorem hasPath_of_getBlob (p : String) (st : Storage) (b : Blob)
    (h : getBlob p st = some b) : hasPath p st = true := by
  unfold getBlob at h
  cases hf : st.find? (fun e => decide (e.1 = p)) with
  | none => rw [hf] at h; cases h
  | some e =>
    have hmem := List.mem_of_find?_eq_some hf
    have hpe : e.1 = p := by
      have := List.find?_some hf
      simpa using this
    exact hasPath_of_mem p e.2 st (by
      rw [← hpe]
      exact hmem)

theorem pasteP8_copyFile_ok (fl : PasteFaults) (uid : Nat) (targetReq : Option Nat)
    (ts : Nat) (s : State) (entry : ClipboardRow) (orig : FileRow)
    (it : PasteItem) (s1 : State)
    (hfind : s.clipboard.find? (fun e => decide (e.user_id = uid)) = some entry)
    (htype : entry.item_type = .file) (hop : entry.operation = .copy)
    (horig : s.files.find? (fun f => decide (f.id = entry.item_id ∧ f.user_id = uid)) = some orig)
    (hok : pasteP8 fl uid targetReq ts s = (.ok it, s1)) :
    s1.files = s.files ++
      [⟨freshId (s.files.map (fun f => f.id)), copyFileName orig.name, orig.size, orig.format,
        mainPath uid ts (sanitize (copyFileName orig.name)), uid, targetReq, none⟩] ∧
    s1.folders = s.folders ∧
    s1.clipboard = s.clipboard ∧
    folderCheck targetReq uid s = true ∧
    hasPath orig.path s.storage = true ∧
    hasPath (mainPath uid ts (sanitize (copyFileName orig.name))) s.storage = false ∧
    hasPath (mainPath uid ts (sanitize (copyFileName orig.name))) s1.storage = true ∧
    (getBlob orig.path s1.storage).isSome = true := by
  unfold pasteP8 at hok
  rw [hfind] at hok
  simp only [] at hok
  split at hok
  · simp at hok
  · rename_i htgt
    have htgt' : folderCheck targetReq uid s = true := by
      cases hv : folderCheck targetReq uid s
      · exact absurd hv htgt
      · rfl
    rw [htype, hop] at hok
    simp only [] at hok
    rw [horig] at hok
    simp only [] at hok
    cases hdl : (if fl.download then none else getBlob orig.path s.storage) with
    | none =>
      rw [hdl] at hok
      simp at hok
    | some bytes =>
      have hgb : getBlob orig.path s.storage = some bytes := by
        by_cases hfd : fl.download
        · rw [if_pos hfd] at hdl; cases hdl
        · rw [if_neg hfd] at hdl; exact hdl
      rw [hdl] at hok
      simp only [] at hok
      cases hput : putBlob fl.upload (mainPath uid ts (sanitize (copyFileName orig.name)))
          bytes s.storage with
      | none =>
        rw [hput] at hok
        simp at hok
      | some st1 =>
        rw [hput] at hok
        simp only [] at hok
        split at hok
        · simp at hok
        · simp only [Prod.mk.injEq] at hok
          obtain ⟨hst1, hfr, -⟩ := putBlob_some _ _ _ _ _ hput
          subst hst1
          have hne : mainPath uid ts (sanitize (copyFileName orig.name)) ≠ orig.path := by
            intro hc
            rw [hc] at hfr
            rw [hasPath_of_getBlob _ _ _ hgb] at hfr
            cases hfr
          rw [← hok.2]
          refine ⟨rfl, rfl, rfl, htgt', hasPath_of_getBlob _ _ _ hgb, hfr, ?_, ?_⟩
          · exact hasPath_of_mem _ bytes _ (List.mem_cons_self _ _)
          · rw [show (({ s with
                files := s.files ++
                  [⟨freshId (s.files.map (fun f => f.id)), copyFileName orig.name, orig.size,
                    orig.format, mainPath uid ts (sanitize (copyFileName orig.name)), uid,
                    targetReq, none⟩],
                storage := (mainPath uid ts (sanitize (copyFileName orig.name)), bytes) ::
                  s.storage,
                permissions :=
                  if fl.insertPerm then s.permissions
                  else s.permissions ++
                    [ownerPermFor (freshId (s.files.map (fun f => f.id)))
                      (freshId (s.permissions.map (fun p => p.id))) uid
                      ("copy-" ++ toString (freshId (s.files.map (fun f => f.id))))] } :
              State)).storage =
              (mainPath uid ts (sanitize (copyFileName orig.name)), bytes) :: s.storage from rfl]
            rw [getBlob_cons_ne _ _ _ _ hne, hgb]
            rfl

theorem pasteP8_copyFile_error (fl : PasteFaults) (uid : Nat) (targetReq : Option Nat)
    (ts : Nat) (s : State) (entry : ClipboardRow) (orig : FileRow)
    (e2 : ApiError) (s2 : State)
    (hfind : s.clipboard.find? (fun e => decide (e.user_id = uid)) = some entry)
    (htype : entry.item_type = .file) (hop : entry.operation = .copy)
    (horig : s.files.find? (fun f => decide (f.id = entry.item_id ∧ f.user_id = uid)) = some orig)
    (herr : pasteP8 fl uid targetReq ts s = (.error e2, s2)) :
    s2 = s := by
  unfold pasteP8 at herr
  rw [hfind] at herr
  simp only [] at herr
  split at herr
  · simp only [Prod.mk.injEq] at herr
    exact herr.2.symm
  · rw [htype, hop] at herr
    simp only [] at herr
    rw [horig] at herr
    simp only [] at herr
    cases hdl : (if fl.download then none else getBlob orig.path s.storage) with
    | none =>
      rw [hdl] at herr
      simp only [Prod.mk.injEq] at herr
      exact herr.2.symm
    | some bytes =>
      rw [hdl] at herr
      simp only [] at herr
      cases hput : putBlob fl.upload (mainPath uid ts (sanitize (copyFileName orig.name)))
          bytes s.storage with
      | none =>
        rw [hput] at herr
        simp only [Prod.mk.injEq] at herr
        exact herr.2.symm
      | some st1 =>
        rw [hput] at herr
        simp only [] at herr
        obtain ⟨hst1, hfr, -⟩ := putBlob_some _ _ _ _ _ hput
        subst hst1
        split at herr
        · simp only [Prod.mk.injEq] at herr
          rw [← herr.2,
            removePaths_cons_mem _ _ _ _ (List.mem_singleton.mpr rfl),
            removePaths_eq_self _ _ (fun x hx => by
              simpa using hasPath_false_ne _ _ hfr x hx)]
        · simp at herr

/-- POST /paste/:folderId? of src/unnamed/part_008 (the second, variant
route): no target-folder validation; a cut rewrites the parent reference
with no ownership filter and the clipboard entry is deleted after any cut;
a copy re-inserts the spread of the selected original row - its id and path
included - changing only the name (suffix " (copy)") and the parent
reference, and the insert result is never inspected. acceptDupId chooses the
metadata store's unobserved reaction to the duplicate explicit id: accept
the row or reject the insert (the rejection is swallowed by the route). -/
def pasteVariant (acceptDupId : Bool) (uid : Nat) (folderId : Option Nat) (s : State) :
    Except ApiError Unit × State :=
  match s.clipboard.find? (fun e => decide (e.user_id = uid)) with
  | none => (.error ⟨404, "Clipboard empty"⟩, s)
  | some entry =>
    match entry.item_type, entry.operation with
    | .file, .cut =>
      (.ok (),
       { s with
         files := s.files.map (fun f =>
           if f.id = entry.item_id then { f with folder_id := folderId } else f),
         clipboard := s.clipboard.filter (fun e => decide (e.id ≠ entry.id)) })
    | .file, .copy =>
      match s.files.find? (fun f => decide (f.id = entry.item_id)) with
      | none => (.error ⟨404, "File not found"⟩, s)
      | some file =>
        let newRow : FileRow :=
          { file with name := file.name ++ " (copy)", folder_id := folderId, deleted_at := none }
        (.ok (),
         { s with files :=
             if s.files.any (fun f => decide (f.id = newRow.id)) && !acceptDupId
             then s.files else s.files ++ [newRow] })
    | .folder, .cut =>
      (.ok (),
       { s with
         folders := s.folders.map (fun f =>
           if f.id = entry.item_id then { f with parent_id := folderId } else f),
         clipboard := s.clipboard.filter (fun e => decide (e.id ≠ entry.id)) })
    | .folder, .copy =>
      match s.folders.find? (fun f => decide (f.id = entry.item_id)) with
      | none => (.error ⟨404, "Folder not found"⟩, s)
      | some folder =>
        let newF : FolderRow :=
          { folder with name := folder.name ++ " (copy)", parent_id := folderId, deleted_at := none }
        (.ok (),
         { s with folders :=
             if s.folders.any (fun f => decide (f.id = newF.id)) && !acceptDupId
             then s.folders else s.folders ++ [newF] })

/-- Concrete state for the C6 counterexample: user 7 holds file 1
(path 7/0_a) on the clipboard as a copy, and its blob is present. -/
def stateC6v : State :=
  ⟨[⟨1, "a", 4, "t", "7/0_a", 7, none, none⟩], [], [], [],
   [⟨1, 7, 1, .file, .copy⟩], [("7/0_a", [9])]⟩

/-- Counterexample for C6: in the variant paste route the copy-file branch
re-inserts the original row's id and path with the insert error ignored, so
this successful copy-paste yields either a single remaining row (the
duplicate-id insert is rejected and swallowed) or a second row sharing the
original's blob path - never two independent rows with distinct paths, and
no blob is copied either way. -/
theorem variant_copy_paste_not_independent :
    (pasteVariant false 7 none stateC6v).1 = .ok () ∧
    (pasteVariant false 7 none stateC6v).2.files =
      [⟨1, "a", 4, "t", "7/0_a", 7, none, none⟩] ∧
    (pasteVariant true 7 none stateC6v).1 = .ok () ∧
    (pasteVariant true 7 none stateC6v).2.files.map (fun f => f.path) =
      ["7/0_a", "7/0_a"] ∧
    (pasteVariant false 7 none stateC6v).2.storage = stateC6v.storage ∧
    (pasteVariant true 7 none stateC6v).2.storage = stateC6v.storage := by
  refine ⟨rfl, rfl, rfl, rfl, rfl, rfl⟩

/-- C6 (amended): in the enhanced paste route a successful copy-paste of a
file appends exactly one new File row whose blob path was fresh before the
call and therefore differs from the original file's path (which must
resolve for the copy's download step), both rows and both blobs existing
afterwards, and any failing copy-paste (the branch after the new blob
exists included, whose compensation removes that blob) leaves the state
exactly as before the call. In the variant paste route the copy re-inserts
the spread of the original row - its id and path included - and ignores the
insert result, so its successful copy-paste leaves either no new row
(duplicate id rejected and swallowed) or a second row sharing the
original's blob path, and copies no blob. -/
theorem copy_paste_file_independent
    (fl : PasteFaults) (uid : Nat) (targetReq : Option Nat) (ts : Nat) (s : State)
    (entry : ClipboardRow) (orig : FileRow)
    (hfind : s.clipboard.find? (fun e => decide (e.user_id = uid)) = some entry)
    (htype : entry.item_type = .file) (hop : entry.operation = .copy)
    (horig : s.files.find? (fun f => decide (f.id = entry.item_id ∧ f.user_id = uid)) = some orig)
    (it : PasteItem) (s1 : State)
    (hok : pasteP8 fl uid targetReq ts s = (.ok it, s1))
    (fl2 : PasteFaults) (e2 : ApiError) (s2 : State)
    (herr : pasteP8 fl2 uid targetReq ts s = (.error e2, s2))
    (uidv : Nat) (trv : Option Nat) (sv : State)
    (ev : ClipboardRow) (origv : FileRow)
    (hfindV : sv.clipboard.find? (fun e => decide (e.user_id = uidv)) = some ev)
    (htypeV : ev.item_type = .file) (hopV : ev.operation = .copy)
    (horigV : sv.files.find? (fun f => decide (f.id = ev.item_id)) = some origv) :
    s1.files = s.files ++
      [⟨freshId (s.files.map (fun f => f.id)), copyFileName orig.name, orig.size, orig.format,
        mainPath uid ts (sanitize (copyFileName orig.name)), uid, targetReq, none⟩] ∧
    orig ∈ s1.files ∧
    mainPath uid ts (sanitize (copyFileName orig.name)) ≠ orig.path ∧
    hasPath (mainPath uid ts (sanitize (copyFileName orig.name))) s1.storage = true ∧
    hasPath orig.path s.storage = true ∧
    s2 = s ∧
    (pasteVariant false uidv trv sv).1 = .ok () ∧
    (pasteVariant false uidv trv sv).2.files = sv.files ∧
    (pasteVariant true uidv trv sv).1 = .ok () ∧
    (pasteVariant true uidv trv sv).2.files = sv.files ++
      [{ origv with name := origv.name ++ " (copy)", folder_id := trv, deleted_at := none }] ∧
    FileRow.path { origv with name := origv.name ++ " (copy)", folder_id := trv, deleted_at := none } = origv.path ∧
    (pasteVariant false uidv trv sv).2.storage = sv.storage ∧
    (pasteVariant true uidv trv sv).2.storage = sv.storage := by
  obtain ⟨hfiles, -, -, -, hOrigHas, hNewFresh, hNewHas, -⟩ :=
    pasteP8_copyFile_ok fl uid targetReq ts s entry orig it s1 hfind htype hop horig hok
  have hdup : sv.files.any (fun f => decide (f.id = FileRow.id { origv with name := origv.name ++ " (copy)", folder_id := trv, deleted_at := none })) = true :=
    List.any_eq_true.mpr ⟨origv, List.mem_of_find?_eq_some horigV, by simp⟩
  refine ⟨hfiles, ?_, ?_, hNewHas, hOrigHas, ?_, ?_, ?_, ?_, ?_, rfl, ?_, ?_⟩
  · rw [hfiles]
    exact List.mem_append_left _ (List.mem_of_find?_eq_some horig)
  · intro hc
    rw [hc, hOrigHas] at hNewFresh
    cases hNewFresh
  · exact pasteP8_copyFile_error fl2 uid targetReq ts s entry orig e2 s2
      hfind htype hop horig herr
  · unfold pasteVariant
    rw [hfindV]
    simp only []
    rw [htypeV, hopV]
    simp only []
    rw [horigV]
  · unfold pasteVariant
    rw [hfindV]
    simp only []
    rw [htypeV, hopV]
    simp only []
    rw [horigV]
    simp only []
    rw [if_pos (by rw [hdup]; rfl)]
  · unfold pasteVariant
    rw [hfindV]
    simp only []
    rw [htypeV, hopV]
    simp only []
    rw [horigV]
  · unfold pasteVariant
    rw [hfindV]
    simp only []
    rw [htypeV, hopV]
    simp only []
    rw [horigV]
    simp only []
    rw [if_neg (by simp)]
  · unfold pasteVariant
    rw [hfindV]
    simp only []
    rw [htypeV, hopV]
    simp only []
    rw [horigV]
  · unfold pasteVariant
    rw [hfindV]
    simp only []
    rw [htypeV, hopV]
    simp only []
    rw [horigV]

/-- Concrete state for the C6 witness: user 7 holds file 1 on the clipboard
as a copy, with the blob present. -/
def stateC6 : State :=
  ⟨[⟨1, "a.txt", 4, "t", "7/0_a.txt", 7, none, none⟩], [], [], [],
   [⟨1, 7, 1, .file, .copy⟩], [("7/0_a.txt", [9])]⟩

/-- Witness for the amended C6: a fault-free enhanced copy-paste appends the
copy row at a fresh path and the failing-insert paste restores the state,
while the variant copy-paste either keeps the single row or appends a row
sharing the blob path. -/
theorem copy_paste_file_independent_witness :
    (pasteP8 ⟨false, false, false, false, false, false, false⟩ 7 none 1 stateC6).2.files =
      stateC6.files ++
        [⟨freshId (stateC6.files.map (fun f => f.id)), copyFileName "a.txt", 4, "t",
          mainPath 7 1 (sanitize (copyFileName "a.txt")), 7, none, none⟩] ∧
    FileRow.mk 1 "a.txt" 4 "t" "7/0_a.txt" 7 none none ∈
      (pasteP8 ⟨false, false, false, false, false, false, false⟩ 7 none 1 stateC6).2.files ∧
    mainPath 7 1 (sanitize (copyFileName "a.txt")) ≠ "7/0_a.txt" ∧
    hasPath (mainPath 7 1 (sanitize (copyFileName "a.txt")))
      (pasteP8 ⟨false, false, false, false, false, false, false⟩ 7 none 1 stateC6).2.storage =
      true ∧
    hasPath "7/0_a.txt" stateC6.storage = true ∧
    (pasteP8 ⟨false, false, true, false, false, false, false⟩ 7 none 1 stateC6).2 = stateC6 ∧
    (pasteVariant false 7 none stateC6v).1 = .ok () ∧
    (pasteVariant false 7 none stateC6v).2.files = stateC6v.files ∧
    (pasteVariant true 7 none stateC6v).1 = .ok () ∧
    (pasteVariant true 7 none stateC6v).2.files = stateC6v.files ++
      [{ FileRow.mk 1 "a" 4 "t" "7/0_a" 7 none none with name := "a" ++ " (copy)", folder_id := none, deleted_at := none }] ∧
    FileRow.path { FileRow.mk 1 "a" 4 "t" "7/0_a" 7 none none with name := "a" ++ " (copy)", folder_id := none, deleted_at := none } = "7/0_a" ∧
    (pasteVariant false 7 none stateC6v).2.storage = stateC6v.storage ∧
    (pasteVariant true 7 none stateC6v).2.storage = stateC6v.storage := by
  have h := copy_paste_file_independent
    ⟨false, false, false, false, false, false, false⟩ 7 none 1 stateC6
    ⟨1, 7, 1, .file, .copy⟩ ⟨1, "a.txt", 4, "t", "7/0_a.txt", 7, none, none⟩
    (by decide) (by decide) (by decide) (by decide)
    (.file ⟨2, copyFileName "a.txt", 4, "t", mainPath 7 1 (sanitize (copyFileName "a.txt")),
      7, none, none⟩)
    (pasteP8 ⟨false, false, false, false, false, false, false⟩ 7 none 1 stateC6).2 rfl
    ⟨false, false, true, false, false, false, false⟩
    ⟨500, "Failed to create file record"⟩
    (pasteP8 ⟨false, false, true, false, false, false, false⟩ 7 none 1 stateC6).2 rfl
    7 none stateC6v
    ⟨1, 7, 1, .file, .copy⟩ ⟨1, "a", 4, "t", "7/0_a", 7, none, none⟩
    (by decide) (by decide) (by decide) (by decide)
  exact ⟨h.1, h.2.1, h.2.2.1, h.2.2.2.1, h.2.2.2.2.1, h.2.2.2.2.2.1,
    h.2.2.2.2.2.2.1, h.2.2.2.2.2.2.2.1, h.2.2.2.2.2.2.2.2.1,
    h.2.2.2.2.2.2.2.2.2.1, h.2.2.2.2.2.2.2.2.2.2.1,
    h.2.2.2.2.2.2.2.2.2.2.2.1, h.2.2.2.2.2.2.2.2.2.2.2.2⟩

/-- C4: a successful cut-paste consumes the user's clipboard entry (an
immediately repeated paste fails with the 404 clipboard-empty error); a
successful copy-paste leaves the entry untouched, and for a file a
fault-free repeat at a fresh timestamped path succeeds again, producing one
more file row; any failing paste leaves the clipboard untouched. -/
theorem clipboard_lifecycle
    (flA : PasteFaults) (uidA : Nat) (trA : Option Nat) (tsA : Nat) (sA : State)
    (eA : ClipboardRow) (itA : PasteItem) (s1A : State)
    (hfA : sA.clipboard.find? (fun e => decide (e.user_id = uidA)) = some eA)
    (honlyA : sA.clipboard.filter (fun e => decide (e.user_id = uidA)) = [eA])
    (hcutA : eA.operation = .cut)
    (hokA : pasteP8 flA uidA trA tsA sA = (.ok itA, s1A))
    (fl2 : PasteFaults) (tr2 : Option Nat) (ts2 : Nat)
    (flB : PasteFaults) (uidB : Nat) (trB : Option Nat) (tsB : Nat) (sB : State)
    (eB : ClipboardRow) (itB : PasteItem) (s1B : State)
    (hfB : sB.clipboard.find? (fun e => decide (e.user_id = uidB)) = some eB)
    (hcopyB : eB.operation = .copy)
    (hokB : pasteP8 flB uidB trB tsB sB = (.ok itB, s1B))
    (uidC : Nat) (trC : Option Nat) (tsC ts3 : Nat) (sC : State)
    (eC : ClipboardRow) (origC : FileRow) (itC : PasteItem) (s1C : State)
    (hfC : sC.clipboard.find? (fun e => decide (e.user_id = uidC)) = some eC)
    (htypeC : eC.item_type = .file) (hopC : eC.operation = .copy)
    (horigC : sC.files.find? (fun f =>
      decide (f.id = eC.item_id ∧ f.user_id = uidC)) = some origC)
    (hok1 : pasteP8 ⟨false, false, false, false, false, false, false⟩ uidC trC tsC sC =
      (.ok itC, s1C))
    (hfresh2 : hasPath (mainPath uidC ts3 (sanitize (copyFileName origC.name)))
      s1C.storage = false)
    (flD : PasteFaults) (uidD : Nat) (trD : Option Nat) (tsD : Nat) (sD : State)
    (eD : ApiError) (s2D : State)
    (herrD : pasteP8 flD uidD trD tsD sD = (.error eD, s2D)) :
    s1A.clipboard.find? (fun e => decide (e.user_id = uidA)) = none ∧
    pasteP8 fl2 uidA tr2 ts2 s1A = (.error ⟨404, "Clipboard empty"⟩, s1A) ∧
    s1B.clipboard = sB.clipboard ∧
    ((pasteP8 ⟨false, false, false, false, false, false, false⟩ uidC trC ts3 s1C).1).isOk =
      true ∧
    (pasteP8 ⟨false, false, false, false, false, false, false⟩ uidC trC ts3 s1C).2.files.length =
      s1C.files.length + 1 ∧
    s2D.clipboard = sD.clipboard := by
  have hnone : s1A.clipboard.find? (fun e => decide (e.user_id = uidA)) = none := by
    rw [pasteP8_cut_consumes flA uidA trA tsA sA eA itA s1A hfA hcutA hokA]
    exact find?_user_after_consume sA.clipboard uidA eA honlyA
  obtain ⟨hfiles1, hfolders1, hclip1, htgt1, hOrigHas1, -, -, hgbiso⟩ :=
    pasteP8_copyFile_ok ⟨false, false, false, false, false, false, false⟩ uidC trC tsC sC
      eC origC itC s1C hfC htypeC hopC horigC hok1
  obtain ⟨bytes2, hb2⟩ := Option.isSome_iff_exists.mp hgbiso
  have hfindfiles2 : s1C.files.find? (fun f =>
      decide (f.id = eC.item_id ∧ f.user_id = uidC)) = some origC := by
    rw [hfiles1, List.find?_append, horigC]
    rfl
  have hrun : pasteP8 ⟨false, false, false, false, false, false, false⟩ uidC trC ts3 s1C =
      (.ok (.file (⟨freshId (s1C.files.map (fun f => f.id)), copyFileName origC.name,
          origC.size, origC.format, mainPath uidC ts3 (sanitize (copyFileName origC.name)),
          uidC, trC, none⟩ : FileRow)),
       { s1C with
         files := s1C.files ++
           [⟨freshId (s1C.files.map (fun f => f.id)), copyFileName origC.name,
             origC.size, origC.format, mainPath uidC ts3 (sanitize (copyFileName origC.name)),
             uidC, trC, none⟩],
         storage := (mainPath uidC ts3 (sanitize (copyFileName origC.name)), bytes2) ::
           s1C.storage,
         permissions := s1C.permissions ++
           [ownerPermFor (freshId (s1C.files.map (fun f => f.id)))
             (freshId (s1C.permissions.map (fun p => p.id))) uidC
             ("copy-" ++ toString (freshId (s1C.files.map (fun f => f.id))))] }) := by
    unfold pasteP8
    rw [hclip1, hfC]
    simp only []
    rw [if_neg (by
      rw [folderCheck_only_folders trC uidC sC s1C hfolders1, htgt1]
      simp)]
    rw [htypeC, hopC]
    simp only []
    rw [hfindfiles2]
    simp only []
    rw [show (if PasteFaults.download
          ⟨false, false, false, false, false, false, false⟩ = true then none
        else getBlob origC.path s1C.storage) = getBlob origC.path s1C.storage from rfl]
    rw [hb2]
    simp only []
    rw [show putBlob (PasteFaults.upload ⟨false, false, false, false, false, false, false⟩)
        (mainPath uidC ts3 (sanitize (copyFileName origC.name))) bytes2 s1C.storage =
        some ((mainPath uidC ts3 (sanitize (copyFileName origC.name)), bytes2) ::
          s1C.storage) from by simp [putBlob, hfresh2]]
    rfl
  refine ⟨hnone, pasteP8_empty fl2 uidA tr2 ts2 s1A hnone,
    pasteP8_copy_intact flB uidB trB tsB sB eB itB s1B hfB hcopyB hokB, ?_, ?_,
    pasteP8_error_clipboard flD uidD trD tsD sD eD s2D herrD⟩
  · rw [hrun]
    rfl
  · rw [hrun]
    simp

/-- Concrete states for the C4 witness: a cut file, a copied folder, a copied
file with its blob, and an empty clipboard. -/
def stateC4cut : State :=
  ⟨[⟨1, "n", 1, "t", "p", 7, some 5, none⟩], [⟨5, "F", 7, none, none⟩], [], [],
   [⟨1, 7, 1, .file, .cut⟩], []⟩

def stateC4copy : State :=
  ⟨[], [⟨2, "F", 7, none, none⟩], [], [], [⟨1, 7, 2, .folder, .copy⟩], []⟩

/-- Witness for C4 at the concrete states. -/
theorem clipboard_lifecycle_witness :
    ((pasteP8 ⟨false, false, false, false, false, false, false⟩ 7 none 0
        stateC4cut).2).clipboard.find? (fun e => decide (e.user_id = 7)) = none ∧
    pasteP8 ⟨false, false, false, false, false, false, false⟩ 7 none 3
      ((pasteP8 ⟨false, false, false, false, false, false, false⟩ 7 none 0 stateC4cut).2) =
      (.error ⟨404, "Clipboard empty"⟩,
       (pasteP8 ⟨false, false, false, false, false, false, false⟩ 7 none 0 stateC4cut).2) ∧
    ((pasteP8 ⟨false, false, false, false, false, false, false⟩ 7 none 0
        stateC4copy).2).clipboard = stateC4copy.clipboard ∧
    ((pasteP8 ⟨false, false, false, false, false, false, false⟩ 7 none 2
        ((pasteP8 ⟨false, false, false, false, false, false, false⟩ 7 none 1
          stateC6).2)).1).isOk = true ∧
    (pasteP8 ⟨false, false, false, false, false, false, false⟩ 7 none 2
        ((pasteP8 ⟨false, false, false, false, false, false, false⟩ 7 none 1
          stateC6).2)).2.files.length =
      ((pasteP8 ⟨false, false, false, false, false, false, false⟩ 7 none 1
        stateC6).2).files.length + 1 ∧
    ((pasteP8 ⟨false, false, false, false, false, false, false⟩ 9 none 0
        ⟨[], [], [], [], [], []⟩).2).clipboard = ([] : List ClipboardRow) :=
  clipboard_lifecycle
    ⟨false, false, false, false, false, false, false⟩ 7 none 0 stateC4cut
    ⟨1, 7, 1, .file, .cut⟩ (.file ⟨1, "n", 1, "t", "p", 7, none, none⟩)
    (pasteP8 ⟨false, false, false, false, false, false, false⟩ 7 none 0 stateC4cut).2
    (by decide) (by decide) (by decide) rfl
    ⟨false, false, false, false, false, false, false⟩ none 3
    ⟨false, false, false, false, false, false, false⟩ 7 none 0 stateC4copy
    ⟨1, 7, 2, .folder, .copy⟩ (.folder ⟨3, "F - Copy", 7, none, none⟩)
    (pasteP8 ⟨false, false, false, false, false, false, false⟩ 7 none 0 stateC4copy).2
    (by decide) (by decide) rfl
    7 none 1 2 stateC6
    ⟨1, 7, 1, .file, .copy⟩ ⟨1, "a.txt", 4, "t", "7/0_a.txt", 7, none, none⟩
    (.file ⟨2, copyFileName "a.txt", 4, "t", mainPath 7 1 (sanitize (copyFileName "a.txt")),
      7, none, none⟩)
    (pasteP8 ⟨false, false, false, false, false, false, false⟩ 7 none 1 stateC6).2
    (by decide) (by decide) (by decide) (by decide) rfl (by decide)
    ⟨false, false, false, false, false, false, false⟩ 9 none 0 ⟨[], [], [], [], [], []⟩
    ⟨404, "Clipboard empty"⟩ ⟨[], [], [], [], [], []⟩ rfl

end Drive
